import Mathlib

/-!
Shallow embedding of the booking orchestration layer of a Cal.com
scheduling chatbot (`calcom_api.py`, `backend.py`), and proofs settling
the specification claims about it.

Modelling conventions, used throughout:
* Instants are integers counting UTC seconds; local calendar stamps are
  integers counting local minutes (a local date is its day index, a
  local time-of-day its minute-of-day; the `strftime` rendering of a
  well-formed stamp is a bijection, so string comparison of rendered
  stamps is equality of these integers).
* A `pytz` timezone is modelled by the pair of conversions the code
  uses: `astimezone` truncated to the minute, and `localize` from a
  local minute to a UTC instant.  Fixed-offset zones instantiate it.
* Machine integers do not overflow in Python, so plain `Int`/`Nat` are
  exact models.
* The external HTTP world is an environment mapping the index of a raw
  request (a global call counter) and the request to an outcome: a
  response with status and body, or a raised exception.  `time.sleep`
  is recorded (not performed), `random.uniform(0, 1)` draws come from a
  jitter stream in the environment.
-/

/-- The fixed list of durations accepted by the external service
(`valid_durations` inside `find_closest_duration` in `calcom_api.py`). -/
def valid_durations : List Int :=
  [5, 10, 15, 20, 25, 30, 45, 50, 60, 75, 80, 90, 120, 150, 180, 240, 300, 360, 420, 480]

/-- Model of Python `min(xs, key=key)` on a list of integers: scan left
to right keeping the first element whose key is minimal (a later
element replaces the current best only when its key is strictly
smaller).  Python raises `ValueError` on an empty list; that case is
modelled by `0` and is never reached here, `valid_durations` being
nonempty. -/
def py_min_by (key : Int → Nat) : List Int → Int
  | [] => 0
  | x :: xs => xs.foldl (fun b y => if key y < key b then y else b) x

/-- `find_closest_duration` from `calcom_api.py`:
`min(valid_durations, key=lambda x: abs(x - duration))`. -/
def find_closest_duration (duration : Int) : Int :=
  py_min_by (fun x => (x - duration).natAbs) valid_durations

/-- The running best of the `min` scan is one of the elements seen. -/
theorem foldl_min_mem (key : Int → Nat) :
    ∀ (l : List Int) (b : Int),
      l.foldl (fun b y => if key y < key b then y else b) b ∈ b :: l := by
  intro l
  induction l with
  | nil => intro b; simp
  | cons x xs ih =>
    intro b
    have h := ih (if key x < key b then x else b)
    simp only [List.foldl_cons]
    rcases List.mem_cons.mp h with h1 | h1
    · rw [h1]
      by_cases hc : key x < key b <;> simp [hc]
    · simp [h1]

theorem foldl_min_le (key : Int → Nat) :
    ∀ (l : List Int) (b : Int),
      key (l.foldl (fun b y => if key y < key b then y else b) b) ≤ key b ∧
      ∀ y ∈ l, key (l.foldl (fun b y => if key y < key b then y else b) b) ≤ key y := by
  intro l
  induction l with
  | nil => intro b; simp
  | cons x xs ih =>
    intro b
    simp only [List.foldl_cons]
    by_cases hc : key x < key b
    · rw [if_pos hc]
      obtain ⟨h1, h2⟩ := ih x
      refine ⟨by omega, ?_⟩
      intro y hy
      rcases List.mem_cons.mp hy with rfl | hy
      · exact h1
      · exact h2 y hy
    · rw [if_neg hc]
      obtain ⟨h1, h2⟩ := ih b
      refine ⟨h1, ?_⟩
      intro y hy
      rcases List.mem_cons.mp hy with rfl | hy
      · omega
      · exact h2 y hy

/-- If the scan never found a strictly smaller key, it never replaced
the initial best. -/
theorem foldl_min_key_eq (key : Int → Nat) :
    ∀ (l : List Int) (b : Int),
      key (l.foldl (fun b y => if key y < key b then y else b) b) = key b →
      l.foldl (fun b y => if key y < key b then y else b) b = b := by
  intro l
  induction l with
  | nil => intro b _; rfl
  | cons x xs ih =>
    intro b hk
    simp only [List.foldl_cons] at hk ⊢
    by_cases hc : key x < key b
    · rw [if_pos hc] at hk
      have := (foldl_min_le key xs x).1
      omega
    · rw [if_neg hc] at hk ⊢
      exact ih b hk

/-- On a strictly ascending list, the first minimum kept by the scan is
the least-valued of all elements achieving the minimal key. -/
theorem foldl_min_first_tie (key : Int → Nat) :
    ∀ (l : List Int) (b : Int), (b :: l).Pairwise (· < ·) →
      ∀ y ∈ b :: l,
        key y = key (l.foldl (fun b y => if key y < key b then y else b) b) →
        l.foldl (fun b y => if key y < key b then y else b) b ≤ y := by
  intro l
  induction l with
  | nil =>
    intro b _ y hy _
    simp only [List.foldl_nil]
    rcases List.mem_singleton.mp hy with rfl
    exact le_refl y
  | cons x xs ih =>
    intro b hsort y hy hk
    simp only [List.foldl_cons] at hk ⊢
    have hbx : b < x := (List.pairwise_cons.mp hsort).1 x (by simp)
    by_cases hc : key x < key b
    · rw [if_pos hc] at hk ⊢
      have hsort' : (x :: xs).Pairwise (· < ·) := (List.pairwise_cons.mp hsort).2
      rcases List.mem_cons.mp hy with rfl | hy'
      · -- y = b : impossible, since the running key is already below key b
        have := (foldl_min_le key xs x).1
        omega
      · exact ih x hsort' y hy' hk
    · rw [if_neg hc] at hk ⊢
      have hsort' : (b :: xs).Pairwise (· < ·) := by
        rcases List.pairwise_cons.mp hsort with ⟨h1, h2⟩
        rcases List.pairwise_cons.mp h2 with ⟨h3, h4⟩
        exact List.pairwise_cons.mpr ⟨fun z hz => h1 z (by simp [hz]), h4⟩
      rcases List.mem_cons.mp hy with rfl | hy'
      · exact ih y hsort' y (by simp) hk
      · rcases List.mem_cons.mp hy' with rfl | hy''
        · -- y = x and key x = key of the result; the result sits in b :: xs,
          -- so by sortedness it is at most x unless it lies strictly beyond x,
          -- which the key accounting rules out.
          have hmem := foldl_min_mem key xs b
          have hle := (foldl_min_le key xs b).1
          rcases List.mem_cons.mp hmem with he | hxs
          · rw [he]; exact le_of_lt hbx
          · -- result ∈ xs, but every element of xs is > x; then key result = key x
            -- with key result ≤ key b means the scan kept key b the whole way,
            -- so the result is b itself, contradicting result ∈ xs > x > b.
            have hkeq : key (xs.foldl (fun b y => if key y < key b then y else b) b) = key b := by omega
            have hres := foldl_min_key_eq key xs b hkeq
            rw [hres]
            exact le_of_lt hbx
        · exact ih b hsort' y (by simp [hy'']) hk

/-- C8: for every positive requested duration `d`,
`find_closest_duration d` is a member of the fixed allowed set, no
member of the set is strictly closer to `d` in absolute difference, and
when two members are equidistant from `d` the smaller one is returned
(the first minimum found scanning the set in ascending order).  The
function is total by construction: it has no failure mode. -/
theorem find_closest_duration_spec (d : Int) (hd : 0 < d) :
    find_closest_duration d ∈ valid_durations ∧
    (∀ y ∈ valid_durations, (find_closest_duration d - d).natAbs ≤ (y - d).natAbs) ∧
    (∀ y ∈ valid_durations, (y - d).natAbs = (find_closest_duration d - d).natAbs →
      find_closest_duration d ≤ y) := by
  have hsort : valid_durations.Pairwise (· < ·) := by decide
  refine ⟨?_, ?_, ?_⟩
  · exact foldl_min_mem (fun x => (x - d).natAbs)
      [10, 15, 20, 25, 30, 45, 50, 60, 75, 80, 90, 120, 150, 180, 240, 300, 360, 420, 480] 5
  · intro y hy
    have h := foldl_min_le (fun x => (x - d).natAbs)
      [10, 15, 20, 25, 30, 45, 50, 60, 75, 80, 90, 120, 150, 180, 240, 300, 360, 420, 480] 5
    rcases List.mem_cons.mp hy with rfl | hy'
    · exact h.1
    · exact h.2 y hy'
  · intro y hy hk
    exact foldl_min_first_tie (fun x => (x - d).natAbs)
      [10, 15, 20, 25, 30, 45, 50, 60, 75, 80, 90, 120, 150, 180, 240, 300, 360, 420, 480] 5
      hsort y hy hk

/-- Witness for C8 at the concrete requested duration 35 (which the
normalizer snaps to 30). -/
theorem find_closest_duration_spec_witness :
    find_closest_duration 35 ∈ valid_durations ∧
    (∀ y ∈ valid_durations, (find_closest_duration 35 - 35).natAbs ≤ (y - 35).natAbs) ∧
    (∀ y ∈ valid_durations, (y - 35).natAbs = (find_closest_duration 35 - 35).natAbs →
      find_closest_duration 35 ≤ y) :=
  find_closest_duration_spec 35 (by decide)

example : find_closest_duration 35 = 30 := by decide
example : find_closest_duration 95 = 90 := by decide
example : find_closest_duration 17 = 15 := by decide
example : find_closest_duration 55 = 50 := by decide

/-! ## Data model and external-world model -/

/-- A `pytz` timezone, reduced to the two conversions the code uses:
`ofUtcMin` models `astimezone` followed by formatting to the minute
(UTC seconds to local minute index); `toUtc` models `localize` on a
parsed naive local datetime (local minute index to UTC seconds). -/
structure Tz where
  ofUtcMin : Int → Int
  toUtc : Int → Int

/-- The fixed-offset zone `off` minutes east of UTC. -/
def Tz.fixed (off : Int) : Tz where
  ofUtcMin := fun t => (t + off * 60).fdiv 60
  toUtc := fun m => m * 60 - off * 60

/-- An attendee record of a booking; the stored timezone name composed
with the `pytz.timezone` lookup is modelled as the `Tz` itself. -/
structure Attendee where
  email : String
  timeZone : Tz
  locale : Option String

/-- Stand-in for the unreachable `attendees[0]` on an empty list
(the enumeration only keeps bookings with a matching attendee). -/
def Attendee.default0 : Attendee := ⟨"", Tz.fixed 0, none⟩

/-- A booking as returned by `GET /bookings/{id}`; `videoCallUrl`
stands for `metadata.videoCallUrl`. -/
structure BookingData where
  id : Nat
  status : Option String
  attendees : List Attendee
  startTime : Int
  endTime : Int
  description : Option String
  videoCallUrl : Option String

/-- The empty-dict default of `response.json().get('booking', {})`. -/
def BookingData.emptyDict : BookingData := ⟨0, none, [], 0, 0, none, none⟩

/-- A booking-reference record `{id, bookingId, deleted}`. -/
structure RefRec where
  id : Nat
  bookingId : Nat
  deleted : Option Bool
deriving DecidableEq

/-- Response bodies, by endpoint shape. -/
inductive Body where
  | empty
  | msg (s : String)
  | refs (l : List RefRec)
  | booking (b : BookingData)
  | createOk (videoCallUrl : Option String)

/-- `response.json().get('booking_references', [])`. -/
def Body.getRefs : Body → List RefRec
  | .refs l => l
  | _ => []

/-- `response.json().get('booking', {})`. -/
def Body.getBooking : Body → BookingData
  | .booking b => b
  | _ => BookingData.emptyDict

/-- `response.json().get('message', 'Unknown error')`. -/
def Body.getMsg : Body → String
  | .msg s => s
  | _ => "Unknown error"

/-- `booking_data.get('metadata', {}).get('videoCallUrl', 'No video call link provided')`. -/
def Body.getVideoUrl : Body → String
  | .createOk (some u) => u
  | _ => "No video call link provided"

/-- The endpoints of the external service touched by the code. -/
inductive Url where
  | bookings
  | bookingRefs
  | booking (id : Nat)
  | cancel (id : Nat)
  | bookingRef (id : Nat)
deriving DecidableEq

/-- One raw HTTP request: method, endpoint and, for POST/PATCH, the
`(start, end)` instants of the JSON payload (in UTC seconds). -/
structure Req where
  method : String
  url : Url
  payload : Option (Int × Int) := none
deriving DecidableEq

def getReq (u : Url) : Req := ⟨"GET", u, none⟩
def delReq (u : Url) : Req := ⟨"DELETE", u, none⟩
def postReq (u : Url) (p : Int × Int) : Req := ⟨"POST", u, some p⟩
def patchReq (u : Url) (p : Int × Int) : Req := ⟨"PATCH", u, some p⟩

/-- Python exceptions relevant to the control flow: `.http s` is
`requests.HTTPError` carrying `response.status_code = s` (a
`RequestException`); `.transport m` is any other `RequestException`
(connection error, timeout); `.valueError m` is `ValueError`, which is
not a `RequestException`. -/
inductive Exn where
  | http (status : Nat)
  | transport (m : String)
  | valueError (m : String)
deriving DecidableEq

/-- `except RequestException` catches exactly these. -/
def Exn.isReqExn : Exn → Bool
  | .http _ => true
  | .transport _ => true
  | .valueError _ => false

/-- Model of `str(e)`. -/
def Exn.msg : Exn → String
  | .http s => "HTTP " ++ toString s
  | .transport m => m
  | .valueError m => m

/-- Outcome of one raw `requests.request`: a response with status code
and body, or a raised connection-level `RequestException` (the
`requests` entry points raise only `RequestException` subclasses). -/
inductive RawOut where
  | resp (status : Nat) (body : Body)
  | exn (m : String)

/-- Observable state threaded through a run: the global index of the
next raw request, the raw requests issued so far, and the durations
passed to `time.sleep` so far (seconds, exact rationals). -/
structure S where
  counter : Nat
  trace : List Req
  sleeps : List ℚ

def S.init : S := ⟨0, [], []⟩

/-- Record one `time.sleep` of `q` seconds. -/
def S.sleep (s : S) (q : ℚ) : S := ⟨s.counter, s.trace, s.sleeps ++ [q]⟩

/-- The external world: `respond n r` is the outcome of the `n`-th raw
request when that request is `r`; `jitter k` is the `k`-th draw of
`random.uniform(0, 1)`; `now` is the current instant (UTC seconds);
`sysTz`, `sysLang` model `get_system_info()`. -/
structure Env where
  respond : Nat → Req → RawOut
  jitter : Nat → ℚ
  now : Int
  sysTz : Tz
  sysLang : String

/-- Issue one raw `requests.request`, recording it. -/
def rawRequest (env : Env) (r : Req) (s : S) : Except Exn (Nat × Body) × S :=
  match env.respond s.counter r with
  | .resp st b => (.ok (st, b), ⟨s.counter + 1, s.trace ++ [r], s.sleeps⟩)
  | .exn m => (.error (.transport m), ⟨s.counter + 1, s.trace ++ [r], s.sleeps⟩)

/-- The loop of `retry_with_backoff` wrapped around one raw request
followed by `raise_for_status` (this is `make_api_request`): on a
status of 400 or above an `HTTPError` is raised; a 429 is retried up
to 5 attempts total, sleeping `delay + uniform(0, 1)` with the delay
doubling each time; any other error status, and any raised connection
error, propagates at once.  `fuel` counts attempts left; `fuel = 0` is
unreachable from 5 attempts since the loop re-raises at the last one. -/
def apiAux (env : Env) (r : Req) : Nat → ℚ → S → Except Exn (Nat × Body) × S
  | 0, _, s => (.error (.http 0), s)
  | fuel + 1, delay, s =>
    match rawRequest env r s with
    | (.error e, s') => (.error e, s')
    | (.ok (st, b), s') =>
      if 400 ≤ st then
        if st = 429 then
          if fuel = 0 then (.error (.http 429), s')
          else
            apiAux env r fuel (delay * 2)
              (s'.sleep (delay + env.jitter s'.sleeps.length))
        else (.error (.http st), s')
      else (.ok (st, b), s')

/-- `make_api_request` from `calcom_api.py`: `requests.request` plus
`raise_for_status`, wrapped in `retry_with_backoff` (5 attempts,
initial delay 1 second). -/
def make_api_request (env : Env) (r : Req) (s : S) : Except Exn (Nat × Body) × S :=
  apiAux env r 5 1 s

/-- The `retry_with_backoff` decorator applied to a whole operation
(`reschedule_booking` is decorated with it): rerun the body whenever it
raises an `HTTPError` with status 429, with the same 5-attempt
doubling-delay schedule. -/
def retryDecAux {α : Type} (env : Env) (body : S → Except Exn α × S) :
    Nat → ℚ → S → Except Exn α × S
  | 0, _, s => (.error (.http 0), s)
  | fuel + 1, delay, s =>
    match body s with
    | (.ok a, s') => (.ok a, s')
    | (.error e, s') =>
      if e = .http 429 then
        if fuel = 0 then (.error (.http 429), s')
        else
          retryDecAux env body fuel (delay * 2)
            (s'.sleep (delay + env.jitter s'.sleeps.length))
      else (.error e, s')

def retryDec {α : Type} (env : Env) (body : S → Except Exn α × S) (s : S) :
    Except Exn α × S :=
  retryDecAux env body 5 1 s

/-! ## Booking enumeration and lookup
(`_get_user_bookings_detailed`, `_find_booking`; the Lean names drop
the leading underscore) -/

/-- First-occurrence deduplication, standing in for
`set(ref['bookingId'] for ...)`.  CPython set iteration order is
implementation-defined; the model fixes first-occurrence order as the
enumeration order. -/
def dedupFirst (l : List Nat) : List Nat :=
  l.foldl (fun acc x => if x ∈ acc then acc else acc ++ [x]) []

/-- The unique ids of undeleted references (`ref['deleted'] is None`). -/
def uniqueIds (refs : List RefRec) : List Nat :=
  dedupFirst ((refs.filter (fun ref => ref.deleted == none)).map (fun ref => ref.bookingId))

/-- The per-id loop of `_get_user_bookings_detailed`: fetch each
booking and keep those not cancelled whose attendee list contains the
user's email. -/
def fetchLoop (env : Env) (email : String) :
    List Nat → List BookingData → S → Except Exn (List BookingData) × S
  | [], acc, s => (.ok acc, s)
  | bid :: rest, acc, s =>
    match make_api_request env (getReq (.booking bid)) s with
    | (.error e, s') => (.error e, s')
    | (.ok (_, b), s') =>
      let bd := b.getBooking
      if (bd.status != some "CANCELLED") && bd.attendees.any (fun a => a.email == email) then
        fetchLoop env email rest (acc ++ [bd]) s'
      else fetchLoop env email rest acc s'

/-- `_get_user_bookings_detailed`: list the booking references, fetch
each unique undeleted reference's booking, and keep the user's
non-cancelled bookings; a `RequestException` anywhere inside makes the
whole function return the empty list. -/
def get_user_bookings_detailed (env : Env) (email : String) (s : S) :
    Except Exn (List BookingData) × S :=
  match make_api_request env (getReq .bookingRefs) s with
  | (.error e, s') => if e.isReqExn then (.ok [], s') else (.error e, s')
  | (.ok (_, body), s') =>
    match fetchLoop env email (uniqueIds body.getRefs) [] s' with
    | (.error e, s'') => if e.isReqExn then (.ok [], s'') else (.error e, s'')
    | (.ok l, s'') => (.ok l, s'')

/-- The minute-matching predicate of `_find_booking`: the booking start
converted with the first attendee's timezone
(`booking['attendees'][0]['timeZone']`), rendered to the minute, is
compared against `f"{meeting_date}T{meeting_time}:00"`.  On well-formed
stamps, equality of the rendered strings is equality of the (day index,
minute of day) pair. -/
def matchesFirstTz (b : BookingData) (d t : Int) : Bool :=
  let tz := (b.attendees.headD Attendee.default0).timeZone
  let lm := tz.ofUtcMin b.startTime
  lm.fdiv 1440 == d && lm.emod 1440 == t

/-- `_find_booking`: linear search for the first of the user's bookings
matching the requested local date/time; `none` both when there are no
candidate bookings and when none of them matches. -/
def find_booking (env : Env) (email : String) (d t : Int) (s : S) :
    Except Exn (Option BookingData) × S :=
  match get_user_bookings_detailed env email s with
  | (.error e, s') => (.error e, s')
  | (.ok bs, s') => (.ok (bs.find? (fun b => matchesFirstTz b d t)), s')

/-! ## Cancellation (`cancel_user_booking`) -/

/-- Injective rendering of a day index inside a message string (models
the `meeting_date` interpolation in the f-strings). -/
def fmtD (d : Int) : String := toString d

/-- Injective rendering of a minute-of-day inside a message string. -/
def fmtT (t : Int) : String := toString t

def notFoundMsg (email : String) (d t : Int) : String :=
  "Error: No booking found for " ++ email ++ " on " ++ fmtD d ++ " at " ++ fmtT t

def cancelOkMsg (email : String) (d t : Int) : String :=
  "Successfully cancelled booking and deleted reference for " ++ email ++
    " on " ++ fmtD d ++ " at " ++ fmtT t

def cancelRefErrMsg (m : String) : String :=
  "Booking cancelled but error deleting reference: " ++ m

def cancelNoRefMsg (email : String) (d t : Int) : String :=
  "Successfully cancelled booking for " ++ email ++ " on " ++ fmtD d ++ " at " ++ fmtT t ++
    ", but no matching reference found to delete"

def cancelFailMsg (m : String) : String :=
  "Error cancelling booking: " ++ m

def cancelCombinedErrMsg (e : Exn) : String :=
  "Error cancelling booking or deleting reference: " ++ e.msg

/-- The reference loop of `cancel_user_booking`: the first reference
whose `bookingId` matches is deleted and a message returned either way;
falling off the loop yields the cancelled-but-no-reference message. -/
def refDeleteLoop (env : Env) (bookingId : Nat) (email : String) (d t : Int) :
    List RefRec → S → Except Exn String × S
  | [], s => (.ok (cancelNoRefMsg email d t), s)
  | ref :: rest, s =>
    if ref.bookingId == bookingId then
      match make_api_request env (delReq (.bookingRef ref.id)) s with
      | (.error e, s') => (.error e, s')
      | (.ok (st, b), s') =>
        if st == 200 then (.ok (cancelOkMsg email d t), s')
        else (.ok (cancelRefErrMsg b.getMsg), s')
    else refDeleteLoop env bookingId email d t rest s

/-- `cancel_user_booking`: locate the booking; if found, issue the
cancel call and best-effort delete the matching reference record.  The
`try` block spans the cancel call and the whole reference phase, so a
`RequestException` raised anywhere there yields the combined error
message.  (The optional cancellation reason only adds a query
parameter and is not modelled.) -/
def cancel_user_booking (env : Env) (email : String) (d t : Int) (s : S) :
    Except Exn String × S :=
  match find_booking env email d t s with
  | (.error e, s') => (.error e, s')
  | (.ok none, s') => (.ok (notFoundMsg email d t), s')
  | (.ok (some b), s') =>
    let inner : Except Exn String × S :=
      match make_api_request env (delReq (.cancel b.id)) s' with
      | (.error e, s2) => (.error e, s2)
      | (.ok (st, body), s2) =>
        if st == 200 then
          match make_api_request env (getReq .bookingRefs) s2 with
          | (.error e, s3) => (.error e, s3)
          | (.ok (_, rbody), s3) => refDeleteLoop env b.id email d t rbody.getRefs s3
        else (.ok (cancelFailMsg body.getMsg), s2)
    match inner with
    | (.error e, s2) =>
      if e.isReqExn then (.ok (cancelCombinedErrMsg e), s2) else (.error e, s2)
    | (.ok m, s2) => (.ok m, s2)

/-! ## Creation (`create_booking`) -/

/-- `listIsPrefix n h` holds when `n` is a prefix of `h`. -/
def listIsPrefix : List Char → List Char → Bool
  | [], _ => true
  | _ :: _, [] => false
  | x :: xs, y :: ys => x == y && listIsPrefix xs ys

/-- `subList n h` holds when `n` occurs contiguously in `h`. -/
def subList (needle : List Char) : List Char → Bool
  | [] => listIsPrefix needle []
  | y :: ys => listIsPrefix needle (y :: ys) || subList needle ys

/-- Substring test, modelling the Python `needle in hay` operator used
by the error-message classification. -/
def strContains (hay needle : String) : Bool :=
  subList needle.data hay.data

def invalidFormatMsg : String :=
  "Invalid date or time format. Please use YYYY-MM-DD for date and HH:MM for time."

def pastCreateMsg : String :=
  "Cannot book a meeting in the past. Please choose a future date and time."

/-- The simplified success dict returned by `create_booking`. -/
structure Summary where
  date : String
  time : String
  duration : String
  reason : String
  name : String
  email : String
  meetingLink : String
deriving DecidableEq

/-- `create_booking`'s JSON-string result: the simplified success dict
or an error dict (`json.dumps` is injective on these, so the
structured value models the string). -/
inductive CreateResult where
  | ok (s : Summary)
  | err (msg : String)
deriving DecidableEq

/-- `create_booking` from `calcom_api.py`.  The `strptime` of
`f"{date} {time}"` is modelled by the pre-parsed optional stamp `cdt`
(day index, minute of day); `none` models an unparsable date or time.
The booking submission goes through `requests.post` directly, not
through `make_api_request`, with no `raise_for_status`; only a raised
`RequestException` is caught, yielding a generic error result. -/
def create_booking (env : Env) (cdt : Option (Int × Int)) (duration : Int)
    (reason name email : String) (s : S) : Except Exn CreateResult × S :=
  let adjusted := find_closest_duration duration
  match cdt with
  | none => (.ok (.err invalidFormatMsg), s)
  | some (d, t) =>
    let start := env.sysTz.toUtc (d * 1440 + t)
    let endT := start + adjusted * 60
    if start < env.now then (.ok (.err pastCreateMsg), s)
    else
      match rawRequest env (postReq .bookings (start, endT)) s with
      | (.error e, s') =>
        if e.isReqExn then (.ok (.err ("Error creating booking: " ++ e.msg)), s')
        else (.error e, s')
      | (.ok (st, b), s') =>
        if st == 200 then
          (.ok (.ok {
            date := fmtD d
            time := fmtT t ++ " to " ++ fmtT ((t + adjusted).emod 1440)
            duration := toString adjusted ++ " minutes"
            reason := reason
            name := name
            email := email
            meetingLink := b.getVideoUrl }), s')
        else
          let m := b.getMsg
          if strContains m "Invalid event length" then
            (.ok (.err ("Error: The requested duration (" ++ toString duration ++
              " minutes) is not valid. The closest valid duration (" ++ toString adjusted ++
              " minutes) will be used instead.")), s')
          else if strContains m "Attempting to book a meeting in the past" then
            (.ok (.err ("Error: " ++ pastCreateMsg)), s')
          else if strContains m "invalid_type" then
            -- the `if not date or not time` arm is unreachable here: the POST
            -- is only reached after a successful strptime, which needs both.
            let missing := (if name = "" then ["name"] else []) ++
              (if email = "" then ["email"] else []) ++
              (if reason = "" then ["reason"] else [])
            if missing ≠ [] then
              (.ok (.err ("Error: Missing required information. Please provide: " ++
                String.intercalate ", " missing ++ ".")), s')
            else
              (.ok (.err "Error: Invalid input. Please check all provided information and try again."), s')
          else (.ok (.err ("Error creating booking: " ++ m)), s')

/-! ## Listing (`get_user_bookings`) -/

/-- The simplified per-booking dict of `get_user_bookings`.  The
timezone NAME string is not carried by the `Tz` model and is omitted;
no claim depends on it. -/
structure SimpleBooking where
  startTime : String
  endTime : String
  description : Option String
  locale : Option String
  videoCallUrl : Option String
deriving DecidableEq

inductive ListResult where
  | ok (l : List SimpleBooking)
  | err (msg : String)
deriving DecidableEq

/-- Localize and simplify one booking: the timezone and locale used are
those of the attendee whose email matches (`next(...)`, matching-
attendee rule), with UTC rendering when there is none. -/
def simplifyBooking (email : String) (b : BookingData) : SimpleBooking :=
  let ma := b.attendees.find? (fun a => a.email == email)
  let stMin := match ma with
    | some a => a.timeZone.ofUtcMin b.startTime
    | none => b.startTime.fdiv 60
  let enMin := match ma with
    | some a => a.timeZone.ofUtcMin b.endTime
    | none => b.endTime.fdiv 60
  { startTime := fmtD (stMin.fdiv 1440) ++ " " ++ fmtT (stMin.emod 1440)
    endTime := fmtD (enMin.fdiv 1440) ++ " " ++ fmtT (enMin.emod 1440)
    description := b.description
    locale := ma.bind (fun a => a.locale)
    videoCallUrl := b.videoCallUrl }

/-- `get_user_bookings`: enumerate, localize, simplify.  Its own
`except RequestException` is unreachable (the enumeration already
catches), but is modelled faithfully. -/
def get_user_bookings (env : Env) (email : String) (s : S) :
    Except Exn ListResult × S :=
  match get_user_bookings_detailed env email s with
  | (.error e, s') =>
    if e.isReqExn then (.ok (.err ("Error fetching user bookings: " ++ e.msg)), s')
    else (.error e, s')
  | (.ok bs, s') => (.ok (.ok (bs.map (simplifyBooking email))), s')

/-! ## Rescheduling (`reschedule_booking`) -/

/-- Python truthiness of the optional new date/time strings (`None`
and the empty string are falsy; `some` models a nonempty string). -/
def truthyS (o : Option Int) : Bool := o.isSome

/-- Python truthiness of `new_duration` (`None` and `0` are falsy). -/
def truthyI (o : Option Int) : Bool := !(o.getD 0 == 0)

def noNewValuesMsg : String := "No new values provided for rescheduling"

def reschedNotFoundMsg (email : String) (d t : Int) : String :=
  "No booking found for " ++ email ++ " on " ++ fmtD d ++ " at " ++ fmtT t

def pastRescheduleMsg : String :=
  "Cannot reschedule a meeting to a past date and time. Please choose a future date and time."

/-- The new start instant of `reschedule_booking`: when a new date or
time is given, the missing half defaults to the original request
values and the combined stamp is localized in the first attendee's
timezone of the located booking; otherwise the original start is
kept. -/
def newStart (b : BookingData) (d t : Int) (nd nt : Option Int) : Int :=
  if nd.isSome || nt.isSome then
    ((b.attendees.headD Attendee.default0).timeZone).toUtc ((nd.getD d) * 1440 + (nt.getD t))
  else b.startTime

/-- The new end instant: start plus the (raw) new duration when
truthy, else the original end-minus-start delta applied to the new
start. -/
def newEnd (b : BookingData) (start : Int) (ndur : Option Int) : Int :=
  if truthyI ndur then start + (ndur.getD 0) * 60
  else start + (b.endTime - b.startTime)

/-- The body of `reschedule_booking` (before its decorator): validate
that some new value is present, locate the booking, compute the new
instants, reject a past start, then PATCH.  The PATCH goes through
`requests.patch` plus `raise_for_status`; the `except` handler only
logs and re-raises (on a connection failure CPython would actually
raise `UnboundLocalError` from the handler itself; either way a
non-`HTTPError` exception propagates, which is what the model keeps). -/
def reschedule_core (env : Env) (email : String) (d t : Int)
    (nd nt ndur : Option Int) (s : S) : Except Exn Body × S :=
  if !(truthyS nd || truthyS nt || truthyI ndur) then
    (.error (.valueError noNewValuesMsg), s)
  else
    match find_booking env email d t s with
    | (.error e, s') => (.error e, s')
    | (.ok none, s') => (.error (.valueError (reschedNotFoundMsg email d t)), s')
    | (.ok (some b), s') =>
      let start := newStart b d t nd nt
      let endT := newEnd b start ndur
      if start < env.now then
        (.error (.valueError pastRescheduleMsg), s')
      else
        match rawRequest env (patchReq (.booking b.id) (start, endT)) s' with
        | (.error e, s2) => (.error e, s2)
        | (.ok (st, body), s2) =>
          if 400 ≤ st then (.error (.http st), s2) else (.ok body, s2)

/-- `reschedule_booking` is the core wrapped in `@retry_with_backoff`:
a 429 raised by the PATCH reruns the whole operation. -/
def reschedule_booking (env : Env) (email : String) (d t : Int)
    (nd nt ndur : Option Int) (s : S) : Except Exn Body × S :=
  retryDec env (reschedule_core env email d t nd nt ndur) s

/-! ## The tool layer (`backend.py`)

Each `_run` catches everything and raises `ToolException`; the tools
set `handle_tool_error = True`, under which the agent framework hands
the `ToolException` text back to the conversational layer as the
tool's textual result.  The returned string is therefore the message
observed by the conversational layer. -/

/-- Interpolation of the parsed summary dict into the reply. -/
def renderSummary (x : Summary) : String :=
  x.date ++ "|" ++ x.time ++ "|" ++ x.duration ++ "|" ++ x.reason ++ "|" ++
    x.name ++ "|" ++ x.email ++ "|" ++ x.meetingLink

/-- `CalComBookingTool._run`. -/
def createToolRun (env : Env) (cdt : Option (Int × Int)) (duration : Int)
    (reason name email : String) (s : S) : Except Exn String × S :=
  match create_booking env cdt duration reason name email s with
  | (.ok (.ok sum), s') =>
    (.ok ("Booking created successfully. Booking details: " ++ renderSummary sum), s')
  | (.ok (.err m), s') => (.ok ("Booking error: " ++ m), s')
  | (.error e, s') => (.ok ("Unknown error: " ++ e.msg), s')

/-- Interpolation of the bookings JSON into the reply. -/
def renderList (l : List SimpleBooking) : String :=
  String.intercalate "; " (l.map (fun sb => sb.startTime ++ "-" ++ sb.endTime))

/-- `CalComGetUserBookingsTool._run`:
`json.loads(result).get('user_bookings', [])` is empty both for an
empty list and for an error dict, so both yield the no-bookings
reply. -/
def getUserBookingsToolRun (env : Env) (email : String) (s : S) :
    Except Exn String × S :=
  match get_user_bookings env email s with
  | (.ok (.ok l), s') =>
    if l.length > 0 then
      (.ok ("Found " ++ toString l.length ++ " bookings for " ++ email ++
        ". Booking details: " ++ renderList l), s')
    else (.ok ("No bookings found for " ++ email ++ "."), s')
  | (.ok (.err _), s') => (.ok ("No bookings found for " ++ email ++ "."), s')
  | (.error e, s') =>
    (.ok ("An error occurred while fetching user bookings: " ++ e.msg), s')

/-- `CalComCancelBookingTool._run`. -/
def cancelToolRun (env : Env) (email : String) (d t : Int) (s : S) :
    Except Exn String × S :=
  match cancel_user_booking env email d t s with
  | (.ok m, s') => (.ok m, s')
  | (.error e, s') =>
    (.ok ("An error occurred while cancelling the booking: " ++ e.msg), s')

/-- Interpolation of the raw updated-booking dict into the reply. -/
def renderBody : Body → String
  | .empty => "{}"
  | .msg m => m
  | .refs l => toString l.length
  | .booking b => toString b.id
  | .createOk _ => "ok"

/-- `CalComRescheduleBookingTool._run`. -/
def rescheduleToolRun (env : Env) (email : String) (d t : Int)
    (nd nt ndur : Option Int) (s : S) : Except Exn String × S :=
  match reschedule_booking env email d t nd nt ndur s with
  | (.ok body, s') =>
    (.ok ("Booking rescheduled successfully. Updated booking details: " ++ renderBody body), s')
  | (.error e, s') =>
    (.ok ("An error occurred while rescheduling the booking: " ++ e.msg), s')

/-! ## Step lemmas for the retry machinery -/

/-- One-step unfolding of `apiAux` at positive fuel. -/
theorem apiAux_succ (env : Env) (r : Req) (f : Nat) (delay : ℚ) (s : S) :
    apiAux env r (f + 1) delay s =
      match rawRequest env r s with
      | (.error e, s') => (.error e, s')
      | (.ok (st, b), s') =>
        if 400 ≤ st then
          if st = 429 then
            if f = 0 then (.error (.http 429), s')
            else
              apiAux env r f (delay * 2)
                (s'.sleep (delay + env.jitter s'.sleeps.length))
          else (.error (.http st), s')
        else (.ok (st, b), s') := by
  rw [apiAux]

theorem apiAux_resp_ok (env : Env) (r : Req) (fuel : Nat) (delay : ℚ) (s : S)
    (st : Nat) (b : Body) (h : env.respond s.counter r = .resp st b) (hst : ¬ 400 ≤ st) :
    apiAux env r (fuel + 1) delay s =
      (.ok (st, b), ⟨s.counter + 1, s.trace ++ [r], s.sleeps⟩) := by
  rw [apiAux_succ]
  simp [rawRequest, h, hst]

theorem apiAux_resp_err (env : Env) (r : Req) (fuel : Nat) (delay : ℚ) (s : S)
    (st : Nat) (b : Body) (h : env.respond s.counter r = .resp st b)
    (hst : 400 ≤ st) (hne : st ≠ 429) :
    apiAux env r (fuel + 1) delay s =
      (.error (.http st), ⟨s.counter + 1, s.trace ++ [r], s.sleeps⟩) := by
  rw [apiAux_succ]
  simp [rawRequest, h, hst, hne]

theorem apiAux_exn (env : Env) (r : Req) (fuel : Nat) (delay : ℚ) (s : S)
    (m : String) (h : env.respond s.counter r = .exn m) :
    apiAux env r (fuel + 1) delay s =
      (.error (.transport m), ⟨s.counter + 1, s.trace ++ [r], s.sleeps⟩) := by
  rw [apiAux_succ]
  simp [rawRequest, h]

theorem apiAux_429_step (env : Env) (r : Req) (f : Nat) (delay : ℚ) (s : S)
    (b : Body) (h : env.respond s.counter r = .resp 429 b) (hf : f ≠ 0) :
    apiAux env r (f + 1) delay s =
      apiAux env r f (delay * 2)
        ⟨s.counter + 1, s.trace ++ [r],
          s.sleeps ++ [delay + env.jitter s.sleeps.length]⟩ := by
  rw [apiAux_succ]
  simp [rawRequest, h, hf, S.sleep]

theorem apiAux_429_last (env : Env) (r : Req) (delay : ℚ) (s : S)
    (b : Body) (h : env.respond s.counter r = .resp 429 b) :
    apiAux env r 1 delay s =
      (.error (.http 429), ⟨s.counter + 1, s.trace ++ [r], s.sleeps⟩) := by
  rw [apiAux_succ]
  simp [rawRequest, h]

/-- Every exception `make_api_request` raises is a `RequestException`:
an `HTTPError` from `raise_for_status` or a raised connection error. -/
theorem apiAux_err_isReqExn (env : Env) (r : Req) :
    ∀ (fuel : Nat) (delay : ℚ) (s : S) (e : Exn),
      (apiAux env r fuel delay s).1 = .error e → e.isReqExn = true := by
  intro fuel
  induction fuel with
  | zero =>
    intro delay s e h
    simp only [apiAux] at h
    cases h
    rfl
  | succ f ih =>
    intro delay s e h
    rw [apiAux_succ] at h
    rcases henv : env.respond s.counter r with ⟨st, b⟩ | m
    · simp only [rawRequest, henv] at h
      by_cases h4 : 400 ≤ st
      · rw [if_pos h4] at h
        by_cases h9 : st = 429
        · rw [if_pos h9] at h
          by_cases hf : f = 0
          · rw [if_pos hf] at h
            simp at h
            cases h
            rfl
          · rw [if_neg hf] at h
            exact ih _ _ _ h
        · rw [if_neg h9] at h
          simp at h
          cases h
          rfl
      · rw [if_neg h4] at h
        simp at h
    · simp only [rawRequest, henv] at h
      simp at h
      cases h
      rfl

/-- One-step unfolding of the decorator at positive fuel. -/
theorem retryDecAux_succ {α : Type} (env : Env) (body : S → Except Exn α × S)
    (f : Nat) (delay : ℚ) (s : S) :
    retryDecAux env body (f + 1) delay s =
      match body s with
      | (.ok a, s') => (.ok a, s')
      | (.error e, s') =>
        if e = .http 429 then
          if f = 0 then (.error (.http 429), s')
          else
            retryDecAux env body f (delay * 2)
              (s'.sleep (delay + env.jitter s'.sleeps.length))
        else (.error e, s') := by
  rw [retryDecAux]

theorem retryDec_ok {α : Type} (env : Env) (body : S → Except Exn α × S) (s : S)
    (a : α) (s' : S) (h : body s = (.ok a, s')) :
    retryDec env body s = (.ok a, s') := by
  have h5 : (5 : Nat) = 4 + 1 := rfl
  rw [retryDec, h5, retryDecAux_succ, h]

theorem retryDec_err {α : Type} (env : Env) (body : S → Except Exn α × S) (s : S)
    (e : Exn) (s' : S) (h : body s = (.error e, s')) (hne : e ≠ .http 429) :
    retryDec env body s = (.error e, s') := by
  have h5 : (5 : Nat) = 4 + 1 := rfl
  rw [retryDec, h5, retryDecAux_succ, h]
  simp [hne]

theorem make_api_request_err_isReqExn (env : Env) (r : Req) (s : S) (e : Exn)
    (h : (make_api_request env r s).1 = .error e) : e.isReqExn = true :=
  apiAux_err_isReqExn env r 5 1 s e h

/-! ## Trace-shape lemmas -/

/-- All trace entries appended by `apiAux` are copies of its request. -/
theorem apiAux_trace (env : Env) (r : Req) :
    ∀ (fuel : Nat) (delay : ℚ) (s : S),
      ∃ new, (apiAux env r fuel delay s).2.trace = s.trace ++ new ∧
        ∀ x ∈ new, x = r := by
  intro fuel
  induction fuel with
  | zero =>
    intro delay s
    exact ⟨[], by simp [apiAux], by simp⟩
  | succ f ih =>
    intro delay s
    rcases henv : env.respond s.counter r with ⟨st, b⟩ | m
    · by_cases h4 : 400 ≤ st
      · by_cases h9 : st = 429
        · subst h9
          by_cases hf : f = 0
          · subst hf
            rw [apiAux_429_last env r delay s b henv]
            exact ⟨[r], by simp, by simp⟩
          · rw [apiAux_429_step env r f delay s b henv hf]
            obtain ⟨new, h1, h2⟩ := ih (delay * 2)
              ⟨s.counter + 1, s.trace ++ [r],
                s.sleeps ++ [delay + env.jitter s.sleeps.length]⟩
            refine ⟨r :: new, ?_, ?_⟩
            · rw [h1]
              simp
            · intro x hx
              rcases List.mem_cons.mp hx with rfl | hx
              · rfl
              · exact h2 x hx
        · rw [apiAux_resp_err env r f delay s st b henv h4 h9]
          exact ⟨[r], by simp, by simp⟩
      · rw [apiAux_resp_ok env r f delay s st b henv h4]
        exact ⟨[r], by simp, by simp⟩
    · rw [apiAux_exn env r f delay s m henv]
      exact ⟨[r], by simp, by simp⟩

theorem make_api_request_trace (env : Env) (r : Req) (s : S) :
    ∃ new, (make_api_request env r s).2.trace = s.trace ++ new ∧
      ∀ x ∈ new, x = r :=
  apiAux_trace env r 5 1 s

/-- Exceptions escaping the detail-fetch loop are `RequestException`s. -/
theorem fetchLoop_err_isReqExn (env : Env) (email : String) :
    ∀ (ids : List Nat) (acc : List BookingData) (s : S) (e : Exn),
      (fetchLoop env email ids acc s).1 = .error e → e.isReqExn = true := by
  intro ids
  induction ids with
  | nil =>
    intro acc s e h
    simp [fetchLoop] at h
  | cons bid rest ih =>
    intro acc s e h
    rcases hm : make_api_request env (getReq (.booking bid)) s with ⟨res, s1⟩
    rcases res with e' | p
    · simp only [fetchLoop, hm] at h
      cases h
      exact make_api_request_err_isReqExn env _ s e (by rw [hm])
    · rcases p with ⟨st, b⟩
      simp only [fetchLoop, hm] at h
      by_cases hc : ((b.getBooking).status != some "CANCELLED") &&
          (b.getBooking).attendees.any (fun a => a.email == email)
      · rw [if_pos hc] at h
        exact ih _ _ _ h
      · rw [if_neg hc] at h
        exact ih _ _ _ h

/-- The detail-fetch loop only issues GET requests. -/
theorem fetchLoop_trace (env : Env) (email : String) :
    ∀ (ids : List Nat) (acc : List BookingData) (s : S),
      ∃ new, (fetchLoop env email ids acc s).2.trace = s.trace ++ new ∧
        ∀ x ∈ new, x.method = "GET" := by
  intro ids
  induction ids with
  | nil =>
    intro acc s
    exact ⟨[], by simp [fetchLoop], by simp⟩
  | cons bid rest ih =>
    intro acc s
    obtain ⟨n1, h1, h2⟩ := make_api_request_trace env (getReq (.booking bid)) s
    rcases hm : make_api_request env (getReq (.booking bid)) s with ⟨res, s1⟩
    have hs1 : s1.trace = s.trace ++ n1 := by rw [hm] at h1; exact h1
    have hGet1 : ∀ x ∈ n1, x.method = "GET" := fun x hx => by rw [h2 x hx]; rfl
    rcases res with e | p
    · refine ⟨n1, ?_, hGet1⟩
      simp only [fetchLoop, hm]
      exact hs1
    · rcases p with ⟨st, b⟩
      simp only [fetchLoop, hm]
      by_cases hc : ((b.getBooking).status != some "CANCELLED") &&
          (b.getBooking).attendees.any (fun a => a.email == email)
      · rw [if_pos hc]
        obtain ⟨n2, h3, h4⟩ := ih (acc ++ [b.getBooking]) s1
        refine ⟨n1 ++ n2, ?_, ?_⟩
        · rw [h3, hs1, List.append_assoc]
        · intro x hx
          rcases List.mem_append.mp hx with hx | hx
          · exact hGet1 x hx
          · exact h4 x hx
      · rw [if_neg hc]
        obtain ⟨n2, h3, h4⟩ := ih acc s1
        refine ⟨n1 ++ n2, ?_, ?_⟩
        · rw [h3, hs1, List.append_assoc]
        · intro x hx
          rcases List.mem_append.mp hx with hx | hx
          · exact hGet1 x hx
          · exact h4 x hx

/-- The enumeration never raises — every `RequestException` inside is
caught and turned into the empty list — and it only issues GETs. -/
theorem gubd_ok_trace (env : Env) (email : String) (s : S) :
    ∃ l s', get_user_bookings_detailed env email s = (.ok l, s') ∧
      ∃ new, s'.trace = s.trace ++ new ∧ ∀ x ∈ new, x.method = "GET" := by
  obtain ⟨n1, h1, h2⟩ := make_api_request_trace env (getReq .bookingRefs) s
  rcases hm : make_api_request env (getReq .bookingRefs) s with ⟨res, s1⟩
  have hs1 : s1.trace = s.trace ++ n1 := by rw [hm] at h1; exact h1
  have hGet1 : ∀ x ∈ n1, x.method = "GET" := fun x hx => by rw [h2 x hx]; rfl
  rcases res with e | p
  · have hq : e.isReqExn = true :=
      make_api_request_err_isReqExn env _ s e (by rw [hm])
    refine ⟨[], s1, ?_, n1, hs1, hGet1⟩
    simp only [get_user_bookings_detailed, hm, hq]
    rfl
  · rcases p with ⟨st, body⟩
    obtain ⟨n2, h3, h4⟩ := fetchLoop_trace env email (uniqueIds body.getRefs) [] s1
    rcases hf : fetchLoop env email (uniqueIds body.getRefs) [] s1 with ⟨fres, s2⟩
    have hs2 : s2.trace = s.trace ++ (n1 ++ n2) := by
      rw [hf] at h3
      rw [h3, hs1, List.append_assoc]
    have hGet : ∀ x ∈ n1 ++ n2, x.method = "GET" := by
      intro x hx
      rcases List.mem_append.mp hx with hx | hx
      · exact hGet1 x hx
      · exact h4 x hx
    rcases fres with e | l
    · have hq : e.isReqExn = true := by
        refine fetchLoop_err_isReqExn env email (uniqueIds body.getRefs) [] s1 e ?_
        rw [hf]
      refine ⟨[], s2, ?_, n1 ++ n2, hs2, hGet⟩
      simp only [get_user_bookings_detailed, hm, hf, hq]
      rfl
    · refine ⟨l, s2, ?_, n1 ++ n2, hs2, hGet⟩
      simp only [get_user_bookings_detailed, hm, hf]

/-- `_find_booking` in terms of the enumeration result. -/
theorem find_booking_eq (env : Env) (email : String) (d t : Int) (s : S)
    (l : List BookingData) (s' : S)
    (h : get_user_bookings_detailed env email s = (.ok l, s')) :
    find_booking env email d t s =
      (.ok (l.find? (fun b => matchesFirstTz b d t)), s') := by
  simp only [find_booking, h]

/-- `_find_booking` never raises and only issues GETs. -/
theorem find_booking_ok_trace (env : Env) (email : String) (d t : Int) (s : S) :
    ∃ ob s', find_booking env email d t s = (.ok ob, s') ∧
      ∃ new, s'.trace = s.trace ++ new ∧ ∀ x ∈ new, x.method = "GET" := by
  obtain ⟨l, s', hgu, new, h1, h2⟩ := gubd_ok_trace env email s
  exact ⟨_, s', find_booking_eq env email d t s l s' hgu, new, h1, h2⟩

/-- `find?` returns the first satisfying element. -/
theorem find_first {α : Type} (p : α → Bool) :
    ∀ (l : List α) (b : α), l.find? p = some b →
      ∃ l1 l2, l = l1 ++ b :: l2 ∧ p b = true ∧ ∀ x ∈ l1, p x = false := by
  intro l
  induction l with
  | nil => intro b h; simp at h
  | cons x xs ih =>
    intro b h
    by_cases hp : p x
    · rw [List.find?_cons_of_pos _ hp] at h
      cases h
      exact ⟨[], xs, rfl, hp, by simp⟩
    · rw [List.find?_cons_of_neg _ hp] at h
      obtain ⟨l1, l2, heq, hb, hall⟩ := ih b h
      refine ⟨x :: l1, l2, by rw [heq]; rfl, hb, ?_⟩
      intro z hz
      rcases List.mem_cons.mp hz with rfl | hz
      · simpa using hp
      · exact hall z hz

/-! ## C2: every operation resolves to a returned message -/

/-- C2: for every environment and all inputs, each of the four
orchestrator operations, as exposed to the conversational layer through
its tool wrapper, ends in a returned text message — never in a raised
exception.  This covers in particular the missing-new-values,
booking-not-found, past-time and external-request-failure paths of
reschedule, which raise inside `reschedule_booking` and are caught and
converted by the tool wrapper. -/
theorem tool_layer_total (env : Env) (cdt : Option (Int × Int)) (duration : Int)
    (reason name email : String) (d t : Int) (nd nt ndur : Option Int) (s : S) :
    ((createToolRun env cdt duration reason name email s).1).isOk = true ∧
    ((getUserBookingsToolRun env email s).1).isOk = true ∧
    ((cancelToolRun env email d t s).1).isOk = true ∧
    ((rescheduleToolRun env email d t nd nt ndur s).1).isOk = true := by
  refine ⟨?_, ?_, ?_, ?_⟩
  · rcases h : create_booking env cdt duration reason name email s with ⟨res, s'⟩
    rcases res with e | cr
    · simp [createToolRun, h, Except.isOk, Except.toBool]
    · rcases cr with sum | m <;> simp [createToolRun, h, Except.isOk, Except.toBool]
  · rcases h : get_user_bookings env email s with ⟨res, s'⟩
    rcases res with e | lr
    · simp [getUserBookingsToolRun, h, Except.isOk, Except.toBool]
    · rcases lr with l | m
      · by_cases hl : 0 < l.length <;>
          simp [getUserBookingsToolRun, h, hl, Except.isOk, Except.toBool]
      · simp [getUserBookingsToolRun, h, Except.isOk, Except.toBool]
  · rcases h : cancel_user_booking env email d t s with ⟨res, s'⟩
    rcases res with e | m <;> simp [cancelToolRun, h, Except.isOk, Except.toBool]
  · rcases h : reschedule_booking env email d t nd nt ndur s with ⟨res, s'⟩
    rcases res with e | body <;> simp [rescheduleToolRun, h, Except.isOk, Except.toBool]

/-! ## C7: past starts are rejected inside each mutation -/

/-- C7: a resolved start instant strictly before the current time makes
the mutation fail with the past-time error before any booking-creating
or booking-updating request is issued, whatever the other fields are.
For create the state is returned untouched (no request at all is
made); for reschedule the result is the past-time `ValueError` and the
only requests issued are the GETs of the booking lookup — no PATCH.
The check is performed afresh inside each of the two mutations. -/
theorem past_start_rejected (env : Env) (d t : Int) (duration : Int)
    (reason name email : String) (nd nt ndur : Option Int) (s : S) :
    (env.sysTz.toUtc (d * 1440 + t) < env.now →
      create_booking env (some (d, t)) duration reason name email s =
        (.ok (.err pastCreateMsg), s)) ∧
    (∀ b s', (truthyS nd || truthyS nt || truthyI ndur) = true →
      find_booking env email d t s = (.ok (some b), s') →
      newStart b d t nd nt < env.now →
      reschedule_booking env email d t nd nt ndur s =
        (.error (.valueError pastRescheduleMsg), s') ∧
      ∃ new, s'.trace = s.trace ++ new ∧ ∀ x ∈ new, x.method = "GET") := by
  constructor
  · intro hpast
    simp only [create_booking]
    rw [if_pos hpast]
  · intro b s' hval hfind hpast
    have hcore : reschedule_core env email d t nd nt ndur s =
        (.error (.valueError pastRescheduleMsg), s') := by
      simp only [reschedule_core, hval, hfind, Bool.not_true, Bool.false_eq_true,
        if_false]
      rw [if_pos hpast]
    constructor
    · exact retryDec_err env _ s _ s' hcore (by simp)
    · obtain ⟨ob, s'', heq, new, h1, h2⟩ := find_booking_ok_trace env email d t s
      rw [hfind] at heq
      injection heq with he1 he2
      subst he2
      exact ⟨new, h1, h2⟩

/-! ## Concrete material shared by witnesses and counterexamples -/

def tzUTC : Tz := Tz.fixed 0

def attU : Attendee := ⟨"u@x", tzUTC, some "en"⟩

def bkW : BookingData :=
  ⟨7, some "ACCEPTED", [attU], 0, 1800, some "standup", none⟩

/-- A healthy world holding one reference to booking 7 for `u@x`,
answering 200 everywhere, with `now` far past that booking's start. -/
def envW : Env where
  respond := fun _ r =>
    match r.url with
    | .bookingRefs => .resp 200 (.refs [⟨1, 7, none⟩])
    | .booking _ =>
      if r.method = "GET" then .resp 200 (.booking bkW) else .resp 200 .empty
    | _ => .resp 200 .empty
  jitter := fun _ => 0
  now := 1000000
  sysTz := tzUTC
  sysLang := "en"

/-- The state after the booking lookup in `envW`. -/
def sW : S := ⟨2, [getReq .bookingRefs, getReq (.booking 7)], []⟩

/-- Witness for C7 at a concrete environment: a create at local stamp
(0, 0) and a reschedule of the booking at that stamp to day 1, both
strictly before `now`. -/
theorem past_start_rejected_witness :
    create_booking envW (some (0, 0)) 30 "sync" "Ann" "u@x" S.init =
      (.ok (.err pastCreateMsg), S.init) ∧
    reschedule_booking envW "u@x" 0 0 (some 1) none none S.init =
      (.error (.valueError pastRescheduleMsg), sW) := by
  have h := past_start_rejected envW 0 0 30 "sync" "Ann" "u@x" (some 1) none none S.init
  refine ⟨h.1 (by decide), ?_⟩
  have h2 := h.2 bkW sW (by decide) (by rfl) (by decide)
  exact h2.1

/-! ## C9: cancel with no match issues no DELETE -/

/-- C9: when no booking of the attendee matches the requested date and
time, cancel returns the not-found message (a value, not a raised
exception) and the run issues no DELETE request at all — neither a
booking-cancel call nor a reference-record deletion: every request
issued belongs to the lookup phase and is a GET. -/
theorem cancel_not_found_no_delete (env : Env) (email : String) (d t : Int) (s : S)
    (s' : S) (hfind : find_booking env email d t s = (.ok none, s')) :
    cancel_user_booking env email d t s = (.ok (notFoundMsg email d t), s') ∧
    ∃ new, s'.trace = s.trace ++ new ∧ ∀ x ∈ new, x.method = "GET" := by
  constructor
  · simp only [cancel_user_booking, hfind]
  · obtain ⟨ob, s'', heq, new, h1, h2⟩ := find_booking_ok_trace env email d t s
    rw [hfind] at heq
    injection heq with he1 he2
    subst he2
    exact ⟨new, h1, h2⟩

/-- Witness for C9: in `envW`, the request stamp (day 3, minute 0)
matches no booking of `u@x`. -/
theorem cancel_not_found_no_delete_witness :
    cancel_user_booking envW "u@x" 3 0 S.init = (.ok (notFoundMsg "u@x" 3 0), sW) ∧
    ∃ new, sW.trace = S.init.trace ++ new ∧ ∀ x ∈ new, x.method = "GET" :=
  cancel_not_found_no_delete envW "u@x" 3 0 S.init sW (by rfl)

/-! ## C3: the lookup matches in the FIRST attendee's timezone -/

def tzNY : Tz := Tz.fixed (-300)

def attOther : Attendee := ⟨"other@x", tzUTC, some "en"⟩

def attUNY : Attendee := ⟨"u@x", tzNY, some "en"⟩

/-- A booking of `u@x` whose first attendee is someone else in UTC,
while the requesting attendee's own record carries UTC-05:00; it
starts at UTC minute 10000 (second 600000). -/
def bkMix : BookingData :=
  ⟨9, some "ACCEPTED", [attOther, attUNY], 600000, 601800, some "mix", none⟩

def envMix : Env where
  respond := fun _ r =>
    match r.url with
    | .bookingRefs => .resp 200 (.refs [⟨2, 9, none⟩])
    | .booking _ =>
      if r.method = "GET" then .resp 200 (.booking bkMix) else .resp 200 .empty
    | _ => .resp 200 .empty
  jitter := fun _ => 0
  now := 0
  sysTz := tzUTC
  sysLang := "en"

/-- The state after the booking lookup in `envMix`. -/
def sMix : S := ⟨2, [getReq .bookingRefs, getReq (.booking 9)], []⟩

/-- C3 counterexample: requesting the UTC stamp (day 6, minute 1360 —
that is, local minute 10000) for `u@x` RETURNS `bkMix`, although the
booking's start converted into the requesting attendee's own recorded
timezone is minute 9700, not 10000.  The code matched in the first
attendee's timezone, refuting the claim that the match is made in the
attendee's own recorded timezone and that a booking localizing to a
different minute there is never a match. -/
theorem find_booking_own_tz_cex :
    ((find_booking envMix "u@x" 6 1360 S.init).1.map
        (fun ob => ob.map (fun b => b.id))) = .ok (some 9) ∧
    ((find_booking envMix "u@x" 6 1360 S.init).1.map
        (fun ob => ob.map (fun b =>
          (b.attendees.find? (fun a => a.email == "u@x")).map
            (fun a => a.timeZone.ofUtcMin b.startTime)))) = .ok (some (some 9700)) ∧
    (9700 : Int) ≠ 6 * 1440 + 1360 := by
  refine ⟨by rfl, by rfl, by decide⟩

/-- C3 amended: `_find_booking` returns the first enumerated candidate
whose start instant, converted into the FIRST attendee's recorded
timezone, equals the requested date and time to the minute, and `none`
otherwise (so a booking may be returned even when it localizes to a
different minute in the requesting attendee's own timezone); the
zero-candidate case and the no-match-among-candidates case are
indistinguishable — both yield `none`. -/
theorem find_booking_first_tz (env : Env) (email : String) (d t : Int) (s : S) :
    ∃ bs s', get_user_bookings_detailed env email s = (.ok bs, s') ∧
      find_booking env email d t s =
        (.ok (bs.find? (fun b => matchesFirstTz b d t)), s') ∧
      ((bs.find? (fun b => matchesFirstTz b d t) = none) ↔
        ∀ b ∈ bs, matchesFirstTz b d t = false) ∧
      (∀ b, bs.find? (fun b => matchesFirstTz b d t) = some b →
        ∃ l1 l2, bs = l1 ++ b :: l2 ∧ matchesFirstTz b d t = true ∧
          ∀ x ∈ l1, matchesFirstTz x d t = false) := by
  obtain ⟨bs, s', hgu, htr⟩ := gubd_ok_trace env email s
  refine ⟨bs, s', hgu, find_booking_eq env email d t s bs s' hgu, ?_, ?_⟩
  · constructor
    · intro h b hb
      have := List.find?_eq_none.mp h b hb
      simpa using this
    · intro h
      apply List.find?_eq_none.mpr
      intro b hb
      simp [h b hb]
  · intro b hb
    exact find_first _ bs b hb

/-- Witness for the amended C3 at `envMix`: the returned booking is the
first candidate and matches in the first attendee's timezone. -/
theorem find_booking_first_tz_witness :
    ∃ l1 l2, [bkMix] = l1 ++ bkMix :: l2 ∧ matchesFirstTz bkMix 6 1360 = true ∧
      ∀ x ∈ l1, matchesFirstTz x 6 1360 = false := by
  obtain ⟨bs, s', hgu, hfind, hnone, hsome⟩ :=
    find_booking_first_tz envMix "u@x" 6 1360 S.init
  have hg : get_user_bookings_detailed envMix "u@x" S.init = (.ok [bkMix], sMix) := by
    rfl
  rw [hg] at hgu
  injection hgu with ha hb
  injection ha with hc
  subst hc
  exact hsome bkMix (by rfl)

/-! ## C4: the retrying transport -/

/-- C4: on 429 responses `make_api_request` reissues the wrapped call,
up to 5 attempts total; before attempt k (k ≥ 2) it sleeps
`1 * 2^(k-2) + jitter` seconds with the jitter drawn from [0, 1), so
the waits between attempts are monotonically non-decreasing; after a
fifth consecutive 429 it re-raises the rate-limit `HTTPError` without
making a sixth attempt; a non-429 error status is raised immediately
after a single attempt. -/
theorem retrying_transport_spec (env : Env) (r : Req)
    (hj : ∀ k, 0 ≤ env.jitter k ∧ env.jitter k < 1) :
    (∀ (bs : Nat → Body) (b5 : Body), (∀ n, n < 4 → env.respond n r = .resp 429 (bs n)) →
      env.respond 4 r = .resp 200 b5 →
      make_api_request env r S.init =
        (.ok (200, b5), ⟨5, List.replicate 5 r,
          [1 + env.jitter 0, 2 + env.jitter 1, 4 + env.jitter 2, 8 + env.jitter 3]⟩) ∧
      List.Chain' (· ≤ ·)
        [1 + env.jitter 0, 2 + env.jitter 1, 4 + env.jitter 2, 8 + env.jitter 3]) ∧
    (∀ (bs : Nat → Body), (∀ n, n < 5 → env.respond n r = .resp 429 (bs n)) →
      make_api_request env r S.init =
        (.error (.http 429), ⟨5, List.replicate 5 r,
          [1 + env.jitter 0, 2 + env.jitter 1, 4 + env.jitter 2, 8 + env.jitter 3]⟩)) ∧
    (∀ st b, 400 ≤ st → st ≠ 429 → env.respond 0 r = .resp st b →
      make_api_request env r S.init = (.error (.http st), ⟨1, [r], []⟩)) := by
  refine ⟨?_, ?_, ?_⟩
  · intro bs b5 h429 hok
    have h0 := h429 0 (by norm_num)
    have h1 := h429 1 (by norm_num)
    have h2 := h429 2 (by norm_num)
    have h3 := h429 3 (by norm_num)
    constructor
    · show apiAux env r 5 1 ⟨0, [], []⟩ = _
      rw [apiAux_succ]
      simp only [rawRequest, h0]
      norm_num [S.sleep]
      rw [apiAux_succ]
      simp only [rawRequest, h1]
      norm_num [S.sleep]
      rw [apiAux_succ]
      simp only [rawRequest, h2]
      norm_num [S.sleep]
      rw [apiAux_succ]
      simp only [rawRequest, h3]
      norm_num [S.sleep]
      rw [apiAux_succ]
      simp only [rawRequest, hok]
      norm_num [List.replicate]
    · have j0 := hj 0
      have j1 := hj 1
      have j2 := hj 2
      have j3 := hj 3
      simp only [List.chain'_cons, List.chain'_singleton, and_true]
      refine ⟨by linarith [j0.2, j1.1], by linarith [j1.2, j2.1], by linarith [j2.2, j3.1]⟩
  · intro bs h429
    have h0 := h429 0 (by norm_num)
    have h1 := h429 1 (by norm_num)
    have h2 := h429 2 (by norm_num)
    have h3 := h429 3 (by norm_num)
    have h4 := h429 4 (by norm_num)
    show apiAux env r 5 1 ⟨0, [], []⟩ = _
    rw [apiAux_succ]
    simp only [rawRequest, h0]
    norm_num [S.sleep]
    rw [apiAux_succ]
    simp only [rawRequest, h1]
    norm_num [S.sleep]
    rw [apiAux_succ]
    simp only [rawRequest, h2]
    norm_num [S.sleep]
    rw [apiAux_succ]
    simp only [rawRequest, h3]
    norm_num [S.sleep]
    rw [apiAux_succ]
    simp only [rawRequest, h4]
    norm_num [List.replicate]
  · intro st b h400 hne h0
    show apiAux env r 5 1 ⟨0, [], []⟩ = _
    rw [apiAux_succ]
    simp only [rawRequest, h0]
    norm_num [h400, hne]

def reqW : Req := getReq .bookingRefs

/-- Four 429s then a 200, jitter one half. -/
def envRetry : Env where
  respond := fun n _ => if n < 4 then .resp 429 .empty else .resp 200 .empty
  jitter := fun _ => 1/2
  now := 0
  sysTz := tzUTC
  sysLang := "en"

/-- Witness for C4, applying the theorem in `envRetry`. -/
theorem retrying_transport_spec_witness :
    make_api_request envRetry reqW S.init =
      (.ok (200, Body.empty), ⟨5, List.replicate 5 reqW,
        [1 + envRetry.jitter 0, 2 + envRetry.jitter 1,
         4 + envRetry.jitter 2, 8 + envRetry.jitter 3]⟩) ∧
    List.Chain' (· ≤ ·)
      [1 + envRetry.jitter 0, 2 + envRetry.jitter 1,
       4 + envRetry.jitter 2, 8 + envRetry.jitter 3] := by
  have h := retrying_transport_spec envRetry reqW
    (by intro k; constructor <;> norm_num [envRetry])
  exact h.1 (fun _ => Body.empty) Body.empty
    (by intro n hn; simp only [envRetry]; rw [if_pos hn])
    (by simp [envRetry])

/-! ## C10: transport failure during enumeration reads as "no bookings" -/

/-- The detail loop over a concatenation runs the prefix first; an
exception raised anywhere in the rest aborts the whole loop, and the
accumulator built over the prefix is carried only into the
continuation. -/
theorem fetchLoop_append (env : Env) (email : String) :
    ∀ (pre rest : List Nat) (acc : List BookingData) (s : S),
      fetchLoop env email (pre ++ rest) acc s =
        match fetchLoop env email pre acc s with
        | (.error e, s1) => (.error e, s1)
        | (.ok acc2, s1) => fetchLoop env email rest acc2 s1 := by
  intro pre
  induction pre with
  | nil =>
    intro rest acc s
    rfl
  | cons id1 pre2 ih =>
    intro rest acc s
    simp only [List.cons_append, fetchLoop]
    rcases hm : make_api_request env (getReq (.booking id1)) s with ⟨res, s1⟩
    rcases res with e | ⟨st, b⟩
    · rfl
    · by_cases hc : (((b.getBooking).status != some "CANCELLED") &&
          (b.getBooking).attendees.any (fun a => a.email == email)) = true
      · simp only [if_pos hc]
        exact ih rest (acc ++ [b.getBooking]) s1
      · simp only [if_neg hc]
        exact ih rest acc s1

/-- C10: if the booking-reference fetch raises a connection-level
error, or any individual booking-detail fetch raises one — at any
position in the loop, even after earlier detail fetches succeeded and
accumulated bookings — the enumeration returns the empty list instead
of propagating the failure (the partial accumulator is discarded);
consequently the list tool replies that the user has no bookings,
cancel replies not-found, and the reschedule tool reports the booking
as not found — the same replies as in a world that genuinely holds
zero references, so at the public interface the transport failure is
indistinguishable from the user having no bookings. -/
theorem enumeration_failure_is_empty
    (envT envE envD : Env) (email : String) (d t : Int) (nd nt ndur : Option Int)
    (m : String)
    (hT : ∀ n, envT.respond n (getReq .bookingRefs) = .exn m)
    (hE : ∀ n, envE.respond n (getReq .bookingRefs) = .resp 200 (Body.refs []))
    (hval : (truthyS nd || truthyS nt || truthyI ndur) = true) :
    (∃ s1, get_user_bookings_detailed envT email S.init = (.ok [], s1)) ∧
    ((getUserBookingsToolRun envT email S.init).1 =
        .ok ("No bookings found for " ++ email ++ ".") ∧
      (getUserBookingsToolRun envE email S.init).1 =
        (getUserBookingsToolRun envT email S.init).1) ∧
    ((cancelToolRun envT email d t S.init).1 = .ok (notFoundMsg email d t) ∧
      (cancelToolRun envE email d t S.init).1 =
        (cancelToolRun envT email d t S.init).1) ∧
    ((rescheduleToolRun envT email d t nd nt ndur S.init).1 =
        .ok ("An error occurred while rescheduling the booking: " ++
          reschedNotFoundMsg email d t) ∧
      (rescheduleToolRun envE email d t nd nt ndur S.init).1 =
        (rescheduleToolRun envT email d t nd nt ndur S.init).1) ∧
    (∀ stR body s1 pre id2 post acc s2 e s3,
      make_api_request envD (getReq .bookingRefs) S.init = (.ok (stR, body), s1) →
      uniqueIds body.getRefs = pre ++ id2 :: post →
      fetchLoop envD email pre [] s1 = (.ok acc, s2) →
      make_api_request envD (getReq (.booking id2)) s2 = (.error e, s3) →
      get_user_bookings_detailed envD email S.init = (.ok [], s3) ∧
      (getUserBookingsToolRun envD email S.init).1 =
        .ok ("No bookings found for " ++ email ++ ".") ∧
      (cancelToolRun envD email d t S.init).1 = .ok (notFoundMsg email d t) ∧
      (rescheduleToolRun envD email d t nd nt ndur S.init).1 =
        .ok ("An error occurred while rescheduling the booking: " ++
          reschedNotFoundMsg email d t) ∧
      (getUserBookingsToolRun envD email S.init).1 =
        (getUserBookingsToolRun envE email S.init).1 ∧
      (cancelToolRun envD email d t S.init).1 =
        (cancelToolRun envE email d t S.init).1 ∧
      (rescheduleToolRun envD email d t nd nt ndur S.init).1 =
        (rescheduleToolRun envE email d t nd nt ndur S.init).1) := by
  have hmT : make_api_request envT (getReq .bookingRefs) S.init =
      (.error (.transport m), ⟨1, [getReq .bookingRefs], []⟩) := by
    show apiAux envT _ 5 1 ⟨0, [], []⟩ = _
    rw [apiAux_succ]
    simp only [rawRequest, hT 0]
    norm_num
  have hgT : get_user_bookings_detailed envT email S.init =
      (.ok [], ⟨1, [getReq .bookingRefs], []⟩) := by
    simp only [get_user_bookings_detailed, hmT]
    rfl
  have hmE : make_api_request envE (getReq .bookingRefs) S.init =
      (.ok (200, Body.refs []), ⟨1, [getReq .bookingRefs], []⟩) := by
    show apiAux envE _ 5 1 ⟨0, [], []⟩ = _
    rw [apiAux_succ]
    simp only [rawRequest, hE 0]
    norm_num
  have hgE : get_user_bookings_detailed envE email S.init =
      (.ok [], ⟨1, [getReq .bookingRefs], []⟩) := by
    simp only [get_user_bookings_detailed, hmE]
    rfl
  have hfT : find_booking envT email d t S.init =
      (.ok none, ⟨1, [getReq .bookingRefs], []⟩) := by
    simp only [find_booking, hgT]
    rfl
  have hfE : find_booking envE email d t S.init =
      (.ok none, ⟨1, [getReq .bookingRefs], []⟩) := by
    simp only [find_booking, hgE]
    rfl
  have hrT : reschedule_booking envT email d t nd nt ndur S.init =
      (.error (.valueError (reschedNotFoundMsg email d t)),
        ⟨1, [getReq .bookingRefs], []⟩) := by
    refine retryDec_err envT _ S.init _ _ ?_ (by simp)
    simp [reschedule_core, hval, hfT]
  have hrE : reschedule_booking envE email d t nd nt ndur S.init =
      (.error (.valueError (reschedNotFoundMsg email d t)),
        ⟨1, [getReq .bookingRefs], []⟩) := by
    refine retryDec_err envE _ S.init _ _ ?_ (by simp)
    simp [reschedule_core, hval, hfE]
  refine ⟨⟨_, hgT⟩, ⟨?_, ?_⟩, ⟨?_, ?_⟩, ⟨?_, ?_⟩, ?_⟩
  · simp only [getUserBookingsToolRun, get_user_bookings, hgT]
    rfl
  · simp only [getUserBookingsToolRun, get_user_bookings, hgT, hgE]
  · simp only [cancelToolRun, cancel_user_booking, hfT]
  · simp only [cancelToolRun, cancel_user_booking, hfT, hfE]
  · simp only [rescheduleToolRun, hrT]
    rfl
  · simp only [rescheduleToolRun, hrT, hrE]
  · intro stR body s1 pre id2 post acc s2 e s3 hrefs hids hpre hfail
    have hq : e.isReqExn = true :=
      make_api_request_err_isReqExn envD _ s2 e (by rw [hfail])
    have hstep : fetchLoop envD email (id2 :: post) acc s2 = (.error e, s3) := by
      simp only [fetchLoop, hfail]
    have hloop : fetchLoop envD email (uniqueIds body.getRefs) [] s1 =
        (.error e, s3) := by
      rw [hids, fetchLoop_append envD email, hpre]
      exact hstep
    have hgD : get_user_bookings_detailed envD email S.init = (.ok [], s3) := by
      simp only [get_user_bookings_detailed, hrefs, hloop, hq]
      rfl
    have hfD : find_booking envD email d t S.init = (.ok none, s3) := by
      simp only [find_booking, hgD]
      rfl
    have hrD : reschedule_booking envD email d t nd nt ndur S.init =
        (.error (.valueError (reschedNotFoundMsg email d t)), s3) := by
      refine retryDec_err envD _ S.init _ _ ?_ (by simp)
      simp [reschedule_core, hval, hfD]
    refine ⟨hgD, ?_, ?_, ?_, ?_, ?_, ?_⟩
    · simp only [getUserBookingsToolRun, get_user_bookings, hgD]
      rfl
    · simp only [cancelToolRun, cancel_user_booking, hfD]
    · simp only [rescheduleToolRun, hrD]
      rfl
    · simp only [getUserBookingsToolRun, get_user_bookings, hgD, hgE]
      norm_num
    · simp only [cancelToolRun, cancel_user_booking, hfD, hfE]
    · simp only [rescheduleToolRun, hrD, hrE]

/-- A world whose reference-list fetch always fails at transport level. -/
def envTfail : Env where
  respond := fun _ r =>
    match r.url with
    | .bookingRefs => .exn "connection reset"
    | _ => .resp 200 .empty
  jitter := fun _ => 0
  now := 0
  sysTz := tzUTC
  sysLang := "en"

/-- A world genuinely holding zero booking references. -/
def envEmpty : Env where
  respond := fun _ r =>
    match r.url with
    | .bookingRefs => .resp 200 (Body.refs [])
    | _ => .resp 200 .empty
  jitter := fun _ => 0
  now := 0
  sysTz := tzUTC
  sysLang := "en"

/-- A world with two references, whose first detail fetch succeeds
with a booking of `u@x` and whose second raises a connection error
mid-loop. -/
def envDmid : Env where
  respond := fun _ r =>
    match r.url with
    | .bookingRefs => .resp 200 (.refs [⟨1, 7, none⟩, ⟨2, 9, none⟩])
    | .booking 7 => .resp 200 (.booking bkW)
    | .booking _ => .exn "connection reset"
    | _ => .resp 200 .empty
  jitter := fun _ => 0
  now := 0
  sysTz := tzUTC
  sysLang := "en"

/-- Witness for C10: `envTfail` (reference listing fails) and `envDmid`
(the second detail fetch fails after the first accumulated a booking —
the non-empty partial result is discarded) both read as the zero-
booking world `envEmpty` at the public interface. -/
theorem enumeration_failure_is_empty_witness :
    (∃ s1, get_user_bookings_detailed envTfail "u@x" S.init = (.ok [], s1)) ∧
    (getUserBookingsToolRun envTfail "u@x" S.init).1 =
      .ok ("No bookings found for " ++ "u@x" ++ ".") ∧
    (cancelToolRun envTfail "u@x" 0 0 S.init).1 = .ok (notFoundMsg "u@x" 0 0) ∧
    (getUserBookingsToolRun envEmpty "u@x" S.init).1 =
      (getUserBookingsToolRun envTfail "u@x" S.init).1 ∧
    get_user_bookings_detailed envDmid "u@x" S.init =
      (.ok [], ⟨3, [getReq .bookingRefs, getReq (.booking 7), getReq (.booking 9)], []⟩) ∧
    0 < ([bkW] : List BookingData).length ∧
    (getUserBookingsToolRun envDmid "u@x" S.init).1 =
      (getUserBookingsToolRun envEmpty "u@x" S.init).1 ∧
    (cancelToolRun envDmid "u@x" 0 0 S.init).1 =
      (cancelToolRun envEmpty "u@x" 0 0 S.init).1 ∧
    (rescheduleToolRun envDmid "u@x" 0 0 none none (some 30) S.init).1 =
      (rescheduleToolRun envEmpty "u@x" 0 0 none none (some 30) S.init).1 := by
  have h := enumeration_failure_is_empty envTfail envEmpty envDmid "u@x" 0 0 none none
    (some 30) "connection reset" (fun n => rfl) (fun n => rfl) (by rfl)
  have hD := h.2.2.2.2 200 (Body.refs [⟨1, 7, none⟩, ⟨2, 9, none⟩])
    ⟨1, [getReq .bookingRefs], []⟩ [7] 9 [] [bkW]
    ⟨2, [getReq .bookingRefs, getReq (.booking 7)], []⟩
    (.transport "connection reset")
    ⟨3, [getReq .bookingRefs, getReq (.booking 7), getReq (.booking 9)], []⟩
    (by rfl) (by rfl) (by rfl) (by rfl)
  exact ⟨h.1, h.2.1.1, h.2.2.1.1, h.2.1.2, hD.1, by norm_num,
    hD.2.2.2.2.1, hD.2.2.2.2.2.1, hD.2.2.2.2.2.2⟩

/-! ## C1: durations transmitted to the external service -/

/-- C1 counterexample: rescheduling with `newDuration = 17` submits a
PATCH whose end minus start is exactly 17 minutes; 17 is not a member
of the allowed set, so the duration determining the submitted end
instant was transmitted unsnapped. -/
theorem reschedule_duration_unsnapped_cex :
    (reschedule_booking envMix "u@x" 6 1360 none none (some 17) S.init).2.trace =
      [getReq .bookingRefs, getReq (.booking 9),
        patchReq (.booking 9) (600000, 601020)] ∧
    (601020 - 600000 : Int) = 17 * 60 ∧
    (17 : Int) ∉ valid_durations := by
  refine ⟨by rfl, by norm_num, by decide⟩

theorem rawRequest_trace (env : Env) (r : Req) (s : S) :
    (rawRequest env r s).2.trace = s.trace ++ [r] := by
  simp only [rawRequest]
  rcases env.respond s.counter r with ⟨st, b⟩ | m <;> rfl

/-- `create_booking` either issues nothing (parse failure or past
start) or exactly one POST whose payload is (start, start + 60 ×
snapped duration). -/
theorem create_booking_trace (env : Env) (cdt : Option (Int × Int)) (dur : Int)
    (reason name email : String) (s : S) :
    (create_booking env cdt dur reason name email s).2.trace = s.trace ∨
    ∃ st, (create_booking env cdt dur reason name email s).2.trace =
      s.trace ++ [postReq .bookings (st, st + find_closest_duration dur * 60)] := by
  rcases cdt with _ | ⟨⟨d0, t0⟩⟩
  · left; rfl
  · by_cases hp : env.sysTz.toUtc (d0 * 1440 + t0) < env.now
    · left
      simp only [create_booking]
      rw [if_pos hp]
    · right
      refine ⟨env.sysTz.toUtc (d0 * 1440 + t0), ?_⟩
      simp only [create_booking]
      rw [if_neg hp]
      rcases hraw : rawRequest env
          (postReq .bookings (env.sysTz.toUtc (d0 * 1440 + t0),
            env.sysTz.toUtc (d0 * 1440 + t0) + find_closest_duration dur * 60)) s
        with ⟨res, s'⟩
      have hs' : s'.trace = s.trace ++ [postReq .bookings
          (env.sysTz.toUtc (d0 * 1440 + t0),
            env.sysTz.toUtc (d0 * 1440 + t0) + find_closest_duration dur * 60)] := by
        have := rawRequest_trace env (postReq .bookings
          (env.sysTz.toUtc (d0 * 1440 + t0),
            env.sysTz.toUtc (d0 * 1440 + t0) + find_closest_duration dur * 60)) s
        rw [hraw] at this
        exact this
      rcases res with e | p
      · simp only [hraw]
        split <;> exact hs'
      · rcases p with ⟨st2, b2⟩
        simp only [hraw]
        repeat' split
        all_goals exact hs'

/-- One run of the reschedule body only appends lookup GETs and, when a
truthy new duration is supplied, at most one PATCH whose payload is
(start, start + 60 × the RAW new duration). -/
theorem reschedule_core_trace (env : Env) (email : String) (d t : Int)
    (nd nt ndur : Option Int) (hdur : truthyI ndur = true) (s : S) :
    ∃ new, (reschedule_core env email d t nd nt ndur s).2.trace = s.trace ++ new ∧
      ∀ x ∈ new, x.method = "GET" ∨
        (x.method = "PATCH" ∧ ∃ st, x.payload = some (st, st + ndur.getD 0 * 60)) := by
  have hval : (truthyS nd || truthyS nt || truthyI ndur) = true := by
    simp [hdur]
  obtain ⟨ob, s', heq, new1, h1, h2⟩ := find_booking_ok_trace env email d t s
  rcases ob with _ | b
  · refine ⟨new1, ?_, fun x hx => Or.inl (h2 x hx)⟩
    simp only [reschedule_core, hval, heq, Bool.not_true, Bool.false_eq_true, if_false]
    exact h1
  · by_cases hp : newStart b d t nd nt < env.now
    · refine ⟨new1, ?_, fun x hx => Or.inl (h2 x hx)⟩
      simp only [reschedule_core, hval, heq, Bool.not_true, Bool.false_eq_true, if_false]
      rw [if_pos hp]
      exact h1
    · have hend : newEnd b (newStart b d t nd nt) ndur =
          newStart b d t nd nt + ndur.getD 0 * 60 := by
        simp [newEnd, hdur]
      rcases hraw : rawRequest env (patchReq (.booking b.id)
          (newStart b d t nd nt, newEnd b (newStart b d t nd nt) ndur)) s'
        with ⟨res, s2⟩
      have hs2 : s2.trace = s'.trace ++ [patchReq (.booking b.id)
          (newStart b d t nd nt, newEnd b (newStart b d t nd nt) ndur)] := by
        have := rawRequest_trace env (patchReq (.booking b.id)
          (newStart b d t nd nt, newEnd b (newStart b d t nd nt) ndur)) s'
        rw [hraw] at this
        exact this
      refine ⟨new1 ++ [patchReq (.booking b.id)
          (newStart b d t nd nt, newEnd b (newStart b d t nd nt) ndur)], ?_, ?_⟩
      · simp only [reschedule_core, hval, heq, Bool.not_true, Bool.false_eq_true, if_false]
        rw [if_neg hp]
        simp only [hraw]
        have htr : s2.trace = s.trace ++ (new1 ++ [patchReq (.booking b.id)
            (newStart b d t nd nt, newEnd b (newStart b d t nd nt) ndur)]) := by
          rw [hs2, h1, List.append_assoc]
        rcases res with e | p
        · exact htr
        · rcases p with ⟨st2, b2⟩
          split
          · rename_i heq2
            exfalso
            simp at heq2
          · rename_i heq2
            simp only [Prod.mk.injEq, Except.ok.injEq] at heq2
            obtain ⟨hA, hs⟩ := heq2
            subst hs
            split <;> exact htr
      · intro x hx
        rcases List.mem_append.mp hx with hx | hx
        · exact Or.inl (h2 x hx)
        · rcases List.mem_singleton.mp hx with rfl
          refine Or.inr ⟨rfl, newStart b d t nd nt, ?_⟩
          simp [patchReq, hend]

/-- The retry decorator preserves any trace-extension invariant of its
body. -/
theorem retryDecAux_trace {α : Type} (env : Env) (body : S → Except Exn α × S)
    (P : Req → Prop)
    (hbody : ∀ s0, ∃ new, (body s0).2.trace = s0.trace ++ new ∧ ∀ x ∈ new, P x) :
    ∀ (fuel : Nat) (delay : ℚ) (s : S),
      ∃ new, (retryDecAux env body fuel delay s).2.trace = s.trace ++ new ∧
        ∀ x ∈ new, P x := by
  intro fuel
  induction fuel with
  | zero =>
    intro delay s
    exact ⟨[], by simp [retryDecAux], by simp⟩
  | succ f ih =>
    intro delay s
    obtain ⟨n1, h1, h2⟩ := hbody s
    rcases hb : body s with ⟨res, s'⟩
    have hs' : s'.trace = s.trace ++ n1 := by rw [hb] at h1; exact h1
    rw [retryDecAux_succ]
    rcases res with e | a
    · by_cases h9 : e = .http 429
      · by_cases hf : f = 0
        · refine ⟨n1, ?_, h2⟩
          simp only [hb, h9, hf]
          simp [hs']
        · obtain ⟨n2, h3, h4⟩ := ih (delay * 2)
            (s'.sleep (delay + env.jitter s'.sleeps.length))
          refine ⟨n1 ++ n2, ?_, ?_⟩
          · simp only [hb, h9, hf]
            simp only [if_true, if_false, S.sleep] at h3 ⊢
            rw [h3]
            simp [S.sleep, hs', List.append_assoc]
          · intro x hx
            rcases List.mem_append.mp hx with hx | hx
            · exact h2 x hx
            · exact h4 x hx
      · refine ⟨n1, ?_, h2⟩
        simp only [hb, h9]
        simp [hs']
    · refine ⟨n1, ?_, h2⟩
      simp only [hb]
      exact hs'

/-- Trace shape of the whole (decorated) reschedule operation. -/
theorem reschedule_booking_trace (env : Env) (email : String) (d t : Int)
    (nd nt ndur : Option Int) (hdur : truthyI ndur = true) (s : S) :
    ∃ new, (reschedule_booking env email d t nd nt ndur s).2.trace = s.trace ++ new ∧
      ∀ x ∈ new, x.method = "GET" ∨
        (x.method = "PATCH" ∧ ∃ st, x.payload = some (st, st + ndur.getD 0 * 60)) :=
  retryDecAux_trace env _ _
    (fun s0 => reschedule_core_trace env email d t nd nt ndur hdur s0) 5 1 s

/-- C1 amended: for every create request the requested duration is
snapped to the nearest allowed value before submission — the submitted
end instant is start plus the snapped duration, and no requested
duration is rejected (the normalizer is total); but for a reschedule
request with newDuration set, the duration determining the submitted
end instant is the RAW requested value, not snapped, and need not be a
member of the allowed set (counterexample: 17 minutes). -/
theorem duration_transmission (env : Env) (cdt : Option (Int × Int)) (dur : Int)
    (reason name email : String) (d t : Int) (nd nt ndur : Option Int) (s : S) :
    find_closest_duration dur ∈ valid_durations ∧
    (∀ r ∈ (create_booking env cdt dur reason name email s).2.trace, r ∉ s.trace →
      ∃ st, r.payload = some (st, st + find_closest_duration dur * 60)) ∧
    (truthyI ndur = true →
      ∀ r ∈ (reschedule_booking env email d t nd nt ndur s).2.trace,
        r ∉ s.trace → r.method = "PATCH" →
        ∃ st, r.payload = some (st, st + ndur.getD 0 * 60)) := by
  refine ⟨?_, ?_, ?_⟩
  · exact foldl_min_mem (fun x => (x - dur).natAbs)
      [10, 15, 20, 25, 30, 45, 50, 60, 75, 80, 90, 120, 150, 180, 240, 300, 360, 420, 480] 5
  · intro r hr hnot
    rcases create_booking_trace env cdt dur reason name email s with h | ⟨st, h⟩
    · rw [h] at hr
      exact absurd hr hnot
    · rw [h] at hr
      rcases List.mem_append.mp hr with hr | hr
      · exact absurd hr hnot
      · rcases List.mem_singleton.mp hr with rfl
        exact ⟨st, rfl⟩
  · intro hdur r hr hnot hm
    obtain ⟨new, h1, h2⟩ := reschedule_booking_trace env email d t nd nt ndur hdur s
    rw [h1] at hr
    rcases List.mem_append.mp hr with hr | hr
    · exact absurd hr hnot
    · rcases h2 r hr with hg | ⟨_, hp⟩
      · rw [hm] at hg
        exact absurd hg (by decide)
      · exact hp

/-- Witness for the amended C1: a create request for 35 minutes lies in
the set after snapping, and the PATCH issued by the counterexample
reschedule carries the raw 17-minute interval. -/
theorem duration_transmission_witness :
    find_closest_duration 35 ∈ valid_durations ∧
    (∃ st, (patchReq (.booking 9) (600000, 601020)).payload =
      some (st, st + (Option.some (17 : Int)).getD 0 * 60)) := by
  have h := duration_transmission envMix (some (6, 1360)) 35 "x" "n" "u@x"
    6 1360 none none (some 17) S.init
  refine ⟨h.1, ?_⟩
  refine h.2.2 (by rfl) (patchReq (.booking 9) (600000, 601020)) ?_ (by simp [S.init]) (by rfl)
  have htr : (reschedule_booking envMix "u@x" 6 1360 none none (some 17) S.init).2.trace =
      [getReq .bookingRefs, getReq (.booking 9),
        patchReq (.booking 9) (600000, 601020)] := by rfl
  rw [htr]
  simp

/-! ## C6: what cancel reports after a successful cancel call -/

/-- A world where the cancel call succeeds but the subsequent
reference listing answers 500. -/
def envC6 : Env where
  respond := fun n r =>
    match r.url with
    | .bookingRefs =>
      if n = 0 then .resp 200 (.refs [⟨2, 9, none⟩]) else .resp 500 (.msg "boom")
    | .booking _ => .resp 200 (.booking bkMix)
    | .cancel _ => .resp 200 .empty
    | _ => .resp 200 .empty
  jitter := fun _ => 0
  now := 0
  sysTz := tzUTC
  sysLang := "en"

/-- C6 counterexample: the cancel call returns 200, then the reference
listing raises an `HTTPError` 500; the operation returns the combined
"Error cancelling booking or deleting reference" message, which is not
the plain success message, not the no-reference message, and not any
cancelled-but-error-deleting message — so the operation does NOT report
the cancellation as successful regardless of the reference phase. -/
theorem cancel_reference_failure_cex :
    (cancel_user_booking envC6 "u@x" 6 1360 S.init).1 =
      .ok (cancelCombinedErrMsg (.http 500)) ∧
    cancelCombinedErrMsg (.http 500) ≠ cancelOkMsg "u@x" 6 1360 ∧
    cancelCombinedErrMsg (.http 500) ≠ cancelNoRefMsg "u@x" 6 1360 ∧
    (∀ m, cancelCombinedErrMsg (.http 500) ≠ cancelRefErrMsg m) := by
  refine ⟨by rfl, by decide, by decide, ?_⟩
  intro m h
  have h2 := congrArg String.data h
  simp [cancelCombinedErrMsg, cancelRefErrMsg, Exn.msg, String.data_append] at h2

theorem refDeleteLoop_no_match (env : Env) (bid : Nat) (email : String) (d t : Int) :
    ∀ (l : List RefRec) (s0 : S), (∀ ref ∈ l, ref.bookingId ≠ bid) →
      refDeleteLoop env bid email d t l s0 = (.ok (cancelNoRefMsg email d t), s0) := by
  intro l
  induction l with
  | nil => intro s0 _; rfl
  | cons ref rest ih =>
    intro s0 h
    have hne : ref.bookingId ≠ bid := h ref (by simp)
    simp only [refDeleteLoop]
    rw [if_neg (by simpa using hne)]
    exact ih s0 (fun x hx => h x (by simp [hx]))

theorem refDeleteLoop_first_match (env : Env) (bid : Nat) (email : String) (d t : Int) :
    ∀ (l1 : List RefRec) (ref : RefRec) (l2 : List RefRec) (s0 : S),
      (∀ x ∈ l1, x.bookingId ≠ bid) → ref.bookingId = bid →
      refDeleteLoop env bid email d t (l1 ++ ref :: l2) s0 =
        match make_api_request env (delReq (.bookingRef ref.id)) s0 with
        | (.error e, s4) => (.error e, s4)
        | (.ok (st4, b4), s4) =>
          if st4 == 200 then (.ok (cancelOkMsg email d t), s4)
          else (.ok (cancelRefErrMsg b4.getMsg), s4) := by
  intro l1
  induction l1 with
  | nil =>
    intro ref l2 s0 _ hm
    simp only [List.nil_append, refDeleteLoop]
    rw [if_pos (by simpa using hm)]
  | cons x rest ih =>
    intro ref l2 s0 h hm
    have hne : x.bookingId ≠ bid := h x (by simp)
    simp only [List.cons_append, refDeleteLoop]
    rw [if_neg (by simpa using hne)]
    exact ih ref l2 s0 (fun z hz => h z (by simp [hz])) hm

/-- C6 amended: after a successful cancel call, cancel reports the
three-way classification only when the reference-phase requests
complete without raising: the plain success message when the first
matching reference's delete returns 200, the cancelled-but-error
message when that delete completes with a non-200 status, and the
no-reference message when no reference matches; but when the reference
listing or the reference delete raises a `RequestException`, the
operation returns the combined error message, which does not report
the cancellation as successful. -/
theorem cancel_after_success_classification (env : Env) (email : String) (d t : Int)
    (s : S) (b : BookingData) (s1 s2 : S) (body : Body)
    (hfind : find_booking env email d t s = (.ok (some b), s1))
    (hcancel : make_api_request env (delReq (.cancel b.id)) s1 = (.ok (200, body), s2)) :
    (∀ stR rbody s3,
      make_api_request env (getReq .bookingRefs) s2 = (.ok (stR, rbody), s3) →
      ((∀ ref ∈ rbody.getRefs, ref.bookingId ≠ b.id) →
        cancel_user_booking env email d t s = (.ok (cancelNoRefMsg email d t), s3)) ∧
      (∀ l1 ref l2, rbody.getRefs = l1 ++ ref :: l2 →
        (∀ x ∈ l1, x.bookingId ≠ b.id) → ref.bookingId = b.id →
        (∀ st4 b4 s4,
          make_api_request env (delReq (.bookingRef ref.id)) s3 = (.ok (st4, b4), s4) →
          cancel_user_booking env email d t s =
            (.ok (if st4 == 200 then cancelOkMsg email d t
              else cancelRefErrMsg b4.getMsg), s4)) ∧
        (∀ e s4,
          make_api_request env (delReq (.bookingRef ref.id)) s3 = (.error e, s4) →
          cancel_user_booking env email d t s =
            (.ok (cancelCombinedErrMsg e), s4)))) ∧
    (∀ e s3, make_api_request env (getReq .bookingRefs) s2 = (.error e, s3) →
      cancel_user_booking env email d t s = (.ok (cancelCombinedErrMsg e), s3)) := by
  constructor
  · intro stR rbody s3 hrefs
    constructor
    · intro hno
      have hloop := refDeleteLoop_no_match env b.id email d t rbody.getRefs s3 hno
      simp [cancel_user_booking, hfind, hcancel, hrefs, hloop]
    · intro l1 ref l2 hsplit hl1 hrefid
      have hloop := refDeleteLoop_first_match env b.id email d t l1 ref l2 s3 hl1 hrefid
      rw [← hsplit] at hloop
      constructor
      · intro st4 b4 s4 hdel
        rw [hdel] at hloop
        by_cases hst : st4 == 200
        · simp only [if_pos hst] at hloop
          simp [cancel_user_booking, hfind, hcancel, hrefs, hloop, hst]
        · simp only [if_neg hst] at hloop
          simp [cancel_user_booking, hfind, hcancel, hrefs, hloop, hst]
      · intro e s4 hdel
        rw [hdel] at hloop
        have hq : e.isReqExn = true :=
          make_api_request_err_isReqExn env _ s3 e (by rw [hdel])
        simp [cancel_user_booking, hfind, hcancel, hrefs, hloop, hq]
  · intro e s3 hrefs
    have hq : e.isReqExn = true :=
      make_api_request_err_isReqExn env _ s2 e (by rw [hrefs])
    simp [cancel_user_booking, hfind, hcancel, hrefs, hq]

/-- A world where cancel, reference listing and reference delete all
succeed. -/
def envC6ok : Env where
  respond := fun _ r =>
    match r.url with
    | .bookingRefs => .resp 200 (.refs [⟨2, 9, none⟩])
    | .booking _ => .resp 200 (.booking bkMix)
    | .cancel _ => .resp 200 .empty
    | .bookingRef _ => .resp 200 .empty
    | .bookings => .resp 200 .empty
  jitter := fun _ => 0
  now := 0
  sysTz := tzUTC
  sysLang := "en"

/-- The final state of the happy-path cancel in `envC6ok`. -/
def sC6 : S := ⟨5, [getReq .bookingRefs, getReq (.booking 9), delReq (.cancel 9),
  getReq .bookingRefs, delReq (.bookingRef 2)], []⟩

/-- Witness for the amended C6: the happy path reports the plain
success message. -/
theorem cancel_after_success_classification_witness :
    cancel_user_booking envC6ok "u@x" 6 1360 S.init =
      (.ok (cancelOkMsg "u@x" 6 1360), sC6) := by
  have h := cancel_after_success_classification envC6ok "u@x" 6 1360 S.init bkMix
    ⟨2, [getReq .bookingRefs, getReq (.booking 9)], []⟩
    ⟨3, [getReq .bookingRefs, getReq (.booking 9), delReq (.cancel 9)], []⟩
    Body.empty (by rfl) (by rfl)
  have h2 := (h.1 200 (Body.refs [⟨2, 9, none⟩])
      ⟨4, [getReq .bookingRefs, getReq (.booking 9), delReq (.cancel 9),
        getReq .bookingRefs], []⟩
      (by rfl)).2 [] ⟨2, 9, none⟩ [] (by rfl) (by simp) (by rfl)
  have h3 := h2.1 200 Body.empty sC6 (by rfl)
  simpa using h3

/-! ## C5: which calls are protected by the retrying transport -/

/-- A world that answers 429 to the create submission. -/
def envPost429 : Env where
  respond := fun _ r =>
    match r.url with
    | .bookings => .resp 429 (.msg "rate limited")
    | _ => .resp 200 .empty
  jitter := fun _ => 0
  now := 0
  sysTz := tzUTC
  sysLang := "en"

/-- C5 counterexample: a 429 on the create submission is answered by a
single POST and an immediate generic error message — no retry, no
backoff sleep, and no rate-limit failure surfacing after exhaustion,
because `create_booking` posts with `requests.post` directly instead of
`make_api_request`. -/
theorem create_submission_not_retried_cex :
    create_booking envPost429 (some (1, 0)) 30 "standup" "Ann" "u@x" S.init =
      (.ok (.err ("Error creating booking: rate limited")),
        ⟨1, [postReq .bookings (86400, 88200)], []⟩) ∧
    ([postReq .bookings (86400, 88200)] : List Req).length = 1 := by
  exact ⟨by rfl, by rfl⟩

/-- Booking lookup succeeds, the first PATCH gets a 429 and the second
a 200. -/
def envPatch429 : Env where
  respond := fun n r =>
    match r.url with
    | .bookingRefs => .resp 200 (.refs [⟨2, 9, none⟩])
    | .booking _ =>
      if r.method = "GET" then .resp 200 (.booking bkMix)
      else if n ≤ 2 then .resp 429 .empty else .resp 200 (.msg "updated")
    | _ => .resp 200 .empty
  jitter := fun _ => 0
  now := 0
  sysTz := tzUTC
  sysLang := "en"

/-- The final state of the retried reschedule in `envPatch429` (the
one backoff sleep is kept in its symbolic `delay + jitter` form). -/
def sPatch429 : S :=
  ⟨6, [getReq .bookingRefs, getReq (.booking 9), patchReq (.booking 9) (600000, 601800),
    getReq .bookingRefs, getReq (.booking 9), patchReq (.booking 9) (600000, 601800)],
   [1 + envPatch429.jitter 0]⟩

/-- C5 amended: calls made through the shared retrying helper
`make_api_request` — reference listing, booking details, booking
cancel, reference delete — retry a 429 internally with backoff and
surface the rate-limit failure only after exhausting 5 attempts; the
reschedule update call is retried by the decorator re-running the
whole operation; but the create submission is issued directly by
`requests.post`: a 429 there is not retried and yields a generic error
message after a single attempt with no backoff sleep. -/
theorem retry_coverage (env : Env) (r : Req) (d0 t0 : Int) (dur : Int)
    (reason name email : String) :
    (∀ b0 b1 st, env.respond 0 r = .resp 429 b0 → env.respond 1 r = .resp st b1 →
      ¬ 400 ≤ st →
      make_api_request env r S.init = (.ok (st, b1), ⟨2, [r, r], [1 + env.jitter 0]⟩)) ∧
    (∀ bs : Nat → Body, (∀ n, n < 5 → env.respond n r = .resp 429 (bs n)) →
      (make_api_request env r S.init).1 = .error (.http 429) ∧
      (make_api_request env r S.init).2.trace.length = 5) ∧
    ((∀ n p, env.respond n (postReq .bookings p) = .resp 429 (Body.msg "rate limited")) →
      ¬ env.sysTz.toUtc (d0 * 1440 + t0) < env.now →
      create_booking env (some (d0, t0)) dur reason name email S.init =
        (.ok (.err ("Error creating booking: rate limited")),
          ⟨1, [postReq .bookings (env.sysTz.toUtc (d0 * 1440 + t0),
            env.sysTz.toUtc (d0 * 1440 + t0) + find_closest_duration dur * 60)], []⟩)) ∧
    (reschedule_booking envPatch429 "u@x" 6 1360 none none (some 30) S.init =
        (.ok (.msg "updated"), sPatch429) ∧
      (sPatch429.trace.filter (fun x => x.method == "PATCH")).length = 2 ∧
      sPatch429.sleeps = [1]) := by
  refine ⟨?_, ?_, ?_, by rfl, by decide, by norm_num [sPatch429, envPatch429]⟩
  · intro b0 b1 st h0 h1 hst
    show apiAux env r 5 1 ⟨0, [], []⟩ = _
    rw [apiAux_succ]
    simp only [rawRequest, h0]
    norm_num [S.sleep]
    rw [apiAux_succ]
    simp only [rawRequest, h1]
    rw [if_neg hst]
    norm_num
  · intro bs h429
    have h0 := h429 0 (by norm_num)
    have h1 := h429 1 (by norm_num)
    have h2 := h429 2 (by norm_num)
    have h3 := h429 3 (by norm_num)
    have h4 := h429 4 (by norm_num)
    have hrun : make_api_request env r S.init =
        (.error (.http 429), ⟨5, List.replicate 5 r,
          [1 + env.jitter 0, 2 + env.jitter 1, 4 + env.jitter 2, 8 + env.jitter 3]⟩) := by
      show apiAux env r 5 1 ⟨0, [], []⟩ = _
      rw [apiAux_succ]
      simp only [rawRequest, h0]
      norm_num [S.sleep]
      rw [apiAux_succ]
      simp only [rawRequest, h1]
      norm_num [S.sleep]
      rw [apiAux_succ]
      simp only [rawRequest, h2]
      norm_num [S.sleep]
      rw [apiAux_succ]
      simp only [rawRequest, h3]
      norm_num [S.sleep]
      rw [apiAux_succ]
      simp only [rawRequest, h4]
      norm_num [List.replicate]
    rw [hrun]
    exact ⟨rfl, by simp⟩
  · intro hpost hpast
    have hc1 : strContains "rate limited" "Invalid event length" = false := by decide
    have hc2 : strContains "rate limited"
      "Attempting to book a meeting in the past" = false := by decide
    have hc3 : strContains "rate limited" "invalid_type" = false := by decide
    simp only [create_booking]
    rw [if_neg hpast]
    simp only [S.init, rawRequest, hpost 0, Body.getMsg, hc1, hc2, hc3]
    norm_num
    rfl

/-- A world answering one 429 then 200 on the reference listing, and
always 429 on the create submission. -/
def envBoth : Env where
  respond := fun n r =>
    match r.url with
    | .bookings => .resp 429 (.msg "rate limited")
    | _ => if n = 0 then .resp 429 .empty else .resp 200 .empty
  jitter := fun _ => 0
  now := 0
  sysTz := tzUTC
  sysLang := "en"

/-- Witness for the amended C5: a retried reference-listing call and an
unretried create submission, in the same world. -/
theorem retry_coverage_witness :
    make_api_request envBoth reqW S.init =
      (.ok (200, Body.empty), ⟨2, [reqW, reqW], [1 + envBoth.jitter 0]⟩) ∧
    create_booking envBoth (some (1, 0)) 30 "standup" "Ann" "u@x" S.init =
      (.ok (.err ("Error creating booking: rate limited")),
        ⟨1, [postReq .bookings (envBoth.sysTz.toUtc (1 * 1440 + 0),
          envBoth.sysTz.toUtc (1 * 1440 + 0) + find_closest_duration 30 * 60)], []⟩) := by
  have h := retry_coverage envBoth reqW 1 0 30 "standup" "Ann" "u@x"
  exact ⟨h.1 Body.empty Body.empty 200 (by rfl) (by rfl) (by norm_num),
    h.2.2.1 (fun n p => rfl) (by decide)⟩
